import Mathlib

/-!
# cisco_services: `getinfo.go`

A shallow embedding of the command-line client `getinfo.go` and the properties
of its call flow: resolve a bearer token, issue the coverage GET and the
product-information GET, decode both JSON answers into typed records.

The program is glue around Go's standard library.  The pieces of the library
that decide what the program computes are modelled here:

* `encoding/json`: the JSON grammar (`JSON.parse`) and the way `json.Unmarshal`
  stores a parsed value into a struct through its `json:"..."` tags
  (`FieldSpec`, `decodeObject`, `unmarshal`);
* `net/http`: a request is the record handed to `http.DefaultClient.Do`, and the
  transport is a stub that answers a request given the requests seen so far;
* `net/url` (whether `http.NewRequest` accepts a URL string, and the re-escaped
  URL the request then carries) and `json.Indent` are taken as parameters
  (`GoLib`);
* `url.ParseQuery` (`parseQuery`) is the decoding of a form body against which
  the body of the token request is read.

Go strings and byte slices are modelled by `String`, Go's `int` by `Int`
(the decoder enforces the 64-bit range).
-/

namespace Getinfo

/-! ## JSON values and the JSON grammar (Go `encoding/json` scanner) -/

/-- A parsed JSON value.  A number literal without fraction and exponent is kept
as its integer value (`strconv.ParseInt` of the literal); any other number
literal is kept as its text. -/
inductive JSON where
  | null : JSON
  | bool (b : Bool) : JSON
  | int (i : Int) : JSON
  | real (lit : String) : JSON
  | str (s : String) : JSON
  | arr (xs : List JSON) : JSON
  | obj (kvs : List (String × JSON)) : JSON

namespace JSON

/-- Nesting limit of the Go scanner (`maxNestingDepth`). -/
def maxNestingDepth : Nat := 10000

/-- The four JSON whitespace characters. -/
def isSpace (c : Char) : Bool :=
  c = ' ' || c = '\t' || c = '\r' || c = '\n'

/-- Drop leading whitespace. -/
def skipSpace : List Char → List Char
  | [] => []
  | c :: cs => if isSpace c then skipSpace cs else c :: cs

/-- Value of a hexadecimal digit. -/
def hexVal (c : Char) : Option Nat :=
  if '0' ≤ c ∧ c ≤ '9' then some (c.toNat - '0'.toNat)
  else if 'a' ≤ c ∧ c ≤ 'f' then some (c.toNat - 'a'.toNat + 10)
  else if 'A' ≤ c ∧ c ≤ 'F' then some (c.toNat - 'A'.toNat + 10)
  else none

/-- Four hexadecimal digits of a `\u` escape, as a UTF-16 code unit. -/
def hex4 : List Char → Option (Nat × List Char)
  | a :: b :: c :: d :: rest =>
    match hexVal a, hexVal b, hexVal c, hexVal d with
    | some x, some y, some z, some w => some (((x * 16 + y) * 16 + z) * 16 + w, rest)
    | _, _, _, _ => none
  | _ => none

/-- The replacement character U+FFFD. -/
def replacementChar : Char := Char.ofNat 0xFFFD

/-- Body of a string literal after the opening quote: returns the decoded text
and the input after the closing quote.  Escapes are the ones the Go scanner
accepts; a `\u` escape that is half of a surrogate pair without its partner
decodes to U+FFFD, as in Go's `unquote`. -/
def parseStringBody : Nat → List Char → List Char → Option (String × List Char)
  | 0, _, _ => none
  | _ + 1, _, [] => none
  | fuel + 1, acc, c :: cs =>
    if c = '"' then some (String.mk acc.reverse, cs)
    else if c = '\\' then
      match cs with
      | [] => none
      | e :: rest =>
        if e = '"' then parseStringBody fuel ('"' :: acc) rest
        else if e = '\\' then parseStringBody fuel ('\\' :: acc) rest
        else if e = '/' then parseStringBody fuel ('/' :: acc) rest
        else if e = 'b' then parseStringBody fuel (Char.ofNat 8 :: acc) rest
        else if e = 'f' then parseStringBody fuel (Char.ofNat 12 :: acc) rest
        else if e = 'n' then parseStringBody fuel ('\n' :: acc) rest
        else if e = 'r' then parseStringBody fuel ('\r' :: acc) rest
        else if e = 't' then parseStringBody fuel ('\t' :: acc) rest
        else if e = 'u' then
          match hex4 rest with
          | none => none
          | some (u, rest1) =>
            if 0xD800 ≤ u ∧ u < 0xDC00 then
              match rest1 with
              | '\\' :: 'u' :: rest2 =>
                match hex4 rest2 with
                | none => none
                | some (v, rest3) =>
                  if 0xDC00 ≤ v ∧ v < 0xE000 then
                    parseStringBody fuel
                      (Char.ofNat (0x10000 + (u - 0xD800) * 0x400 + (v - 0xDC00)) :: acc) rest3
                  else parseStringBody fuel (replacementChar :: acc) rest1
              | _ => parseStringBody fuel (replacementChar :: acc) rest1
            else if 0xDC00 ≤ u ∧ u < 0xE000 then
              parseStringBody fuel (replacementChar :: acc) rest1
            else parseStringBody fuel (Char.ofNat u :: acc) rest1
        else none
    else if c.toNat < 0x20 then none
    else parseStringBody fuel (c :: acc) cs

/-- Split off a maximal run of decimal digits. -/
def spanDigits : List Char → List Char × List Char
  | [] => ([], [])
  | c :: cs =>
    if c.isDigit then ((spanDigits cs).1.cons c, (spanDigits cs).2) else ([], c :: cs)

/-- Value of a run of decimal digits. -/
def digitsVal (ds : List Char) : Nat :=
  ds.foldl (fun n c => n * 10 + (c.toNat - '0'.toNat)) 0

/-- A number literal: `-? (0 | [1-9][0-9]*) (\. [0-9]+)? ([eE] [+-]? [0-9]+)?`. -/
def parseNumber (cs : List Char) : Option (JSON × List Char) :=
  let (neg, cs1) := match cs with
    | '-' :: r => (true, r)
    | _ => (false, cs)
  let (ip, cs2) := spanDigits cs1
  if ip = [] then none
  else if ip.head? = some '0' ∧ ip.length ≠ 1 then
    -- after a leading zero the scanner ends the literal: `01` is `0` followed by `1`
    some (JSON.int 0, cs1.drop 1)
  else
    let (frac, cs3) := match cs2 with
      | '.' :: r => let (fd, r1) := spanDigits r; (some fd, r1)
      | _ => (none, cs2)
    if frac = some [] then none
    else
      let (ex, cs4) := match cs3 with
        | 'e' :: '+' :: r => let (ed, r1) := spanDigits r; (some ('e' :: '+' :: ed, ed), r1)
        | 'e' :: '-' :: r => let (ed, r1) := spanDigits r; (some ('e' :: '-' :: ed, ed), r1)
        | 'E' :: '+' :: r => let (ed, r1) := spanDigits r; (some ('E' :: '+' :: ed, ed), r1)
        | 'E' :: '-' :: r => let (ed, r1) := spanDigits r; (some ('E' :: '-' :: ed, ed), r1)
        | 'e' :: r => let (ed, r1) := spanDigits r; (some ('e' :: ed, ed), r1)
        | 'E' :: r => let (ed, r1) := spanDigits r; (some ('E' :: ed, ed), r1)
        | _ => (none, cs3)
      match frac, ex with
      | none, none =>
        some (JSON.int (if neg then - (digitsVal ip : Int) else (digitsVal ip : Int)), cs4)
      | _, some (_, []) => none
      | _, _ =>
        let fracText := match frac with
          | some fd => '.' :: fd
          | none => []
        let exText := match ex with
          | some (t, _) => t
          | none => []
        some (JSON.real (String.mk ((if neg then ['-'] else []) ++ ip ++ fracText ++ exText)), cs4)

mutual
/-- One JSON value, after optional leading whitespace. `fuel` bounds the
recursion, `depth` is the number of containers currently open. -/
def parseValue : Nat → Nat → List Char → Option (JSON × List Char)
  | 0, _, _ => none
  | fuel + 1, depth, cs =>
    match skipSpace cs with
    | [] => none
    | '{' :: rest =>
      if depth ≥ maxNestingDepth then none
      else
        match skipSpace rest with
        | '}' :: rest1 => some (JSON.obj [], rest1)
        | rest1 =>
          match parseMembers fuel (depth + 1) rest1 with
          | some (kvs, rest2) => some (JSON.obj kvs, rest2)
          | none => none
    | '[' :: rest =>
      if depth ≥ maxNestingDepth then none
      else
        match skipSpace rest with
        | ']' :: rest1 => some (JSON.arr [], rest1)
        | rest1 =>
          match parseElements fuel (depth + 1) rest1 with
          | some (xs, rest2) => some (JSON.arr xs, rest2)
          | none => none
    | '"' :: rest =>
      match parseStringBody (rest.length + 1) [] rest with
      | some (s, rest1) => some (JSON.str s, rest1)
      | none => none
    | 't' :: 'r' :: 'u' :: 'e' :: rest => some (JSON.bool true, rest)
    | 'f' :: 'a' :: 'l' :: 's' :: 'e' :: rest => some (JSON.bool false, rest)
    | 'n' :: 'u' :: 'l' :: 'l' :: rest => some (JSON.null, rest)
    | c :: rest => if c = '-' ∨ c.isDigit then parseNumber (c :: rest) else none
/-- The members of a non-empty object, up to and including the closing brace. -/
def parseMembers : Nat → Nat → List Char → Option (List (String × JSON) × List Char)
  | 0, _, _ => none
  | fuel + 1, depth, cs =>
    match skipSpace cs with
    | '"' :: rest =>
      match parseStringBody (rest.length + 1) [] rest with
      | none => none
      | some (k, rest1) =>
        match skipSpace rest1 with
        | ':' :: rest2 =>
          match parseValue fuel depth rest2 with
          | none => none
          | some (v, rest3) =>
            match skipSpace rest3 with
            | '}' :: rest4 => some ([(k, v)], rest4)
            | ',' :: rest4 =>
              match parseMembers fuel depth rest4 with
              | some (kvs, rest5) => some ((k, v) :: kvs, rest5)
              | none => none
            | _ => none
        | _ => none
    | _ => none
/-- The elements of a non-empty array, up to and including the closing bracket. -/
def parseElements : Nat → Nat → List Char → Option (List JSON × List Char)
  | 0, _, _ => none
  | fuel + 1, depth, cs =>
    match parseValue fuel depth cs with
    | none => none
    | some (v, rest) =>
      match skipSpace rest with
      | ']' :: rest1 => some ([v], rest1)
      | ',' :: rest1 =>
        match parseElements fuel depth rest1 with
        | some (xs, rest2) => some (v :: xs, rest2)
        | none => none
      | _ => none
end

/-- A whole JSON text: one value surrounded by optional whitespace
(what Go's `checkValid` accepts). -/
def parse (s : String) : Option JSON :=
  match parseValue (2 * s.data.length + 2) 0 s.data with
  | some (v, rest) => if skipSpace rest = [] then some v else none
  | none => none

end JSON

/-! ## Storing a JSON value into a Go value (`json.Unmarshal`) -/

/-- Errors the program can meet; the message texts are not modelled. -/
inductive Err where
  /-- `http.NewRequest` rejected the URL. -/
  | badURL (msg : String) : Err
  /-- `http.DefaultClient.Do` failed. -/
  | network (msg : String) : Err
  /-- `json.SyntaxError`: the body is not a JSON text. -/
  | malformed : Err
  /-- `json.UnmarshalTypeError`: a JSON value of kind `value` does not fit the Go field. -/
  | typeMismatch (value : String) : Err
  deriving DecidableEq, Repr

/-- Decoding stores a JSON value into an existing Go value and may report an error. -/
abbrev Decoder (α : Type) := JSON → α → α × Option Err

/-- The decoder keeps the first error it saved (`d.saveError`). -/
def firstErr (a b : Option Err) : Option Err :=
  match a with
  | some e => some e
  | none => b

/-- JSON value into a Go `string`. -/
def decodeString : Decoder String
  | JSON.str s, _ => (s, none)
  | JSON.null, old => (old, none)
  | JSON.bool _, old => (old, some (Err.typeMismatch "bool"))
  | JSON.int _, old => (old, some (Err.typeMismatch "number"))
  | JSON.real _, old => (old, some (Err.typeMismatch "number"))
  | JSON.arr _, old => (old, some (Err.typeMismatch "array"))
  | JSON.obj _, old => (old, some (Err.typeMismatch "object"))

/-- Range of Go's `int` on a 64-bit platform. -/
def inIntRange (i : Int) : Prop := -(2 : Int) ^ 63 ≤ i ∧ i < (2 : Int) ^ 63

instance (i : Int) : Decidable (inIntRange i) := by
  unfold inIntRange; infer_instance

/-- JSON value into a Go `int`. -/
def decodeInt : Decoder Int
  | JSON.int i, old => if inIntRange i then (i, none) else (old, some (Err.typeMismatch "number"))
  | JSON.real _, old => (old, some (Err.typeMismatch "number"))
  | JSON.null, old => (old, none)
  | JSON.bool _, old => (old, some (Err.typeMismatch "bool"))
  | JSON.str _, old => (old, some (Err.typeMismatch "string"))
  | JSON.arr _, old => (old, some (Err.typeMismatch "array"))
  | JSON.obj _, old => (old, some (Err.typeMismatch "object"))

/-- One exported struct field: its `json:"..."` tag and how a value is stored in it. -/
structure FieldSpec (α : Type) where
  name : String
  store : Decoder α

/-- A field of type `β` of the struct `α`, from its tag, getter, setter and the
decoder of `β`. -/
def field {α β : Type} (name : String) (get : α → β) (set : α → β → α)
    (dec : Decoder β) : FieldSpec α :=
  { name := name, store := fun v r => (set r (dec v (get r)).1, (dec v (get r)).2) }

/-- Case folding of one character of an object key: ASCII letters to upper case,
and the two non-ASCII characters whose simple fold is an ASCII letter. -/
def foldRune (c : Char) : Char :=
  if 'a' ≤ c ∧ c ≤ 'z' then Char.ofNat (c.toNat - 32)
  else if c = Char.ofNat 0x17F then 'S'
  else if c = Char.ofNat 0x212A then 'K'
  else c

/-- Case folding of an object key (`foldName`). -/
def foldName (s : String) : String := String.mk (s.data.map foldRune)

/-- The field an object key addresses: the exact tag if there is one, else the
first tag equal up to case folding. -/
def findField {α : Type} (fields : List (FieldSpec α)) (key : String) : Option (FieldSpec α) :=
  match fields.find? (fun f => f.name = key) with
  | some f => some f
  | none => fields.find? (fun f => foldName f.name = foldName key)

/-- The members of a JSON object stored one after the other, in input order;
keys that address no field are skipped. -/
def decodeObject {α : Type} (fields : List (FieldSpec α)) : List (String × JSON) → α → α × Option Err
  | [], r => (r, none)
  | (k, v) :: rest, r =>
    match findField fields k with
    | some f =>
      (( decodeObject fields rest (f.store v r).1).1,
        firstErr (f.store v r).2 (decodeObject fields rest (f.store v r).1).2)
    | none => decodeObject fields rest r

/-- JSON value into a Go struct with the given fields. -/
def decodeStruct {α : Type} (fields : List (FieldSpec α)) : Decoder α
  | JSON.obj kvs, r => decodeObject fields kvs r
  | JSON.null, r => (r, none)
  | JSON.bool _, r => (r, some (Err.typeMismatch "bool"))
  | JSON.int _, r => (r, some (Err.typeMismatch "number"))
  | JSON.real _, r => (r, some (Err.typeMismatch "number"))
  | JSON.str _, r => (r, some (Err.typeMismatch "string"))
  | JSON.arr _, r => (r, some (Err.typeMismatch "array"))

/-- The elements of a JSON array stored one after the other into a slice: an
element at a position the old slice has is stored into the old element there,
an element beyond the old length into a fresh zero value. -/
def decodeElements {α : Type} (elem : Decoder α) (zero : α) :
    List JSON → List α → List α × Option Err
  | [], _ => ([], none)
  | x :: xs, [] =>
    ((elem x zero).1 :: (decodeElements elem zero xs []).1,
      firstErr (elem x zero).2 (decodeElements elem zero xs []).2)
  | x :: xs, o :: old =>
    ((elem x o).1 :: (decodeElements elem zero xs old).1,
      firstErr (elem x o).2 (decodeElements elem zero xs old).2)

/-- JSON value into a Go slice: an array is stored element by element into the
old slice, which takes the length of the array; `null` empties the slice.
(What the backing array holds beyond the length of the old slice is not part of
the model: an element beyond that length starts from the zero value.) -/
def decodeSlice {α : Type} (elem : Decoder α) (zero : α) : Decoder (List α)
  | JSON.arr xs, old => decodeElements elem zero xs old
  | JSON.null, _ => ([], none)
  | JSON.bool _, old => (old, some (Err.typeMismatch "bool"))
  | JSON.int _, old => (old, some (Err.typeMismatch "number"))
  | JSON.real _, old => (old, some (Err.typeMismatch "number"))
  | JSON.str _, old => (old, some (Err.typeMismatch "string"))
  | JSON.obj _, old => (old, some (Err.typeMismatch "object"))

/-- `json.Unmarshal(data, &v)` for a struct `v`: a syntax error leaves `v`
untouched; otherwise the value is stored and the first type error is returned. -/
def unmarshal {α : Type} (fields : List (FieldSpec α)) (data : String) (v : α) : α × Option Err :=
  match JSON.parse data with
  | none => (v, some Err.malformed)
  | some j => decodeStruct fields j v

/-! ## The records of `getinfo.go` and their `json` tags -/

/-- The token record (`type OAuth struct`). -/
structure OAuth where
  AccessToken : String
  TokenType : String
  ExpiresIn : Int
  deriving DecidableEq, Repr

/-- Go's zero value of `OAuth`. -/
def OAuth.zero : OAuth :=
  { AccessToken := "",
    TokenType := "",
    ExpiresIn := 0 }

/-- The fields of `OAuth` with their `json` tags, in declaration order. -/
def OAuth.fields : List (FieldSpec OAuth) :=
  [ field "access_token" (fun r => r.AccessToken) (fun r x => { r with AccessToken := x }) decodeString,
    field "token_type" (fun r => r.TokenType) (fun r x => { r with TokenType := x }) decodeString,
    field "expires_in" (fun r => r.ExpiresIn) (fun r x => { r with ExpiresIn := x }) decodeInt ]

/-- The anonymous struct of the field `PaginationResponseRecord` (the same in both summaries). -/
structure PaginationResponseRecord where
  LastIndex : Int
  PageIndex : Int
  PageRecords : Int
  SelfLink : String
  Title : String
  TotalRecords : Int
  deriving DecidableEq, Repr

/-- Go's zero value of `PaginationResponseRecord`. -/
def PaginationResponseRecord.zero : PaginationResponseRecord :=
  { LastIndex := 0,
    PageIndex := 0,
    PageRecords := 0,
    SelfLink := "",
    Title := "",
    TotalRecords := 0 }

/-- The fields of `PaginationResponseRecord` with their `json` tags, in declaration order. -/
def PaginationResponseRecord.fields : List (FieldSpec PaginationResponseRecord) :=
  [ field "last_index" (fun r => r.LastIndex) (fun r x => { r with LastIndex := x }) decodeInt,
    field "page_index" (fun r => r.PageIndex) (fun r x => { r with PageIndex := x }) decodeInt,
    field "page_records" (fun r => r.PageRecords) (fun r x => { r with PageRecords := x }) decodeInt,
    field "self_link" (fun r => r.SelfLink) (fun r x => { r with SelfLink := x }) decodeString,
    field "title" (fun r => r.Title) (fun r x => { r with Title := x }) decodeString,
    field "total_records" (fun r => r.TotalRecords) (fun r x => { r with TotalRecords := x }) decodeInt ]

/-- Element type of `BasePidList`. -/
structure BasePidEntry where
  BasePid : String
  deriving DecidableEq, Repr

/-- Go's zero value of `BasePidEntry`. -/
def BasePidEntry.zero : BasePidEntry :=
  { BasePid := "" }

/-- The fields of `BasePidEntry` with their `json` tags, in declaration order. -/
def BasePidEntry.fields : List (FieldSpec BasePidEntry) :=
  [ field "base_pid" (fun r => r.BasePid) (fun r x => { r with BasePid := x }) decodeString ]

/-- Element type of `OrderablePidList`. -/
structure OrderablePidEntry where
  ItemDescription : String
  ItemPosition : String
  ItemType : String
  OrderablePid : String
  PillarCode : String
  deriving DecidableEq, Repr

/-- Go's zero value of `OrderablePidEntry`. -/
def OrderablePidEntry.zero : OrderablePidEntry :=
  { ItemDescription := "",
    ItemPosition := "",
    ItemType := "",
    OrderablePid := "",
    PillarCode := "" }

/-- The fields of `OrderablePidEntry` with their `json` tags, in declaration order. -/
def OrderablePidEntry.fields : List (FieldSpec OrderablePidEntry) :=
  [ field "item_description" (fun r => r.ItemDescription) (fun r x => { r with ItemDescription := x }) decodeString,
    field "item_position" (fun r => r.ItemPosition) (fun r x => { r with ItemPosition := x }) decodeString,
    field "item_type" (fun r => r.ItemType) (fun r x => { r with ItemType := x }) decodeString,
    field "orderable_pid" (fun r => r.OrderablePid) (fun r x => { r with OrderablePid := x }) decodeString,
    field "pillar_code" (fun r => r.PillarCode) (fun r x => { r with PillarCode := x }) decodeString ]

/-- Element type of `Sn2infoSummary.SerialNumbers`. -/
structure SerialNumberRecord where
  BasePidList : List BasePidEntry
  ContractSiteCustomerName : String
  ContractSiteAddress1 : String
  ContractSiteCity : String
  ContractSiteStateProvince : String
  ContractSiteCountry : String
  CoveredProductLineEndDate : String
  ID : String
  IsCovered : String
  OrderablePidList : List OrderablePidEntry
  ParentSrNo : String
  ServiceContractNumber : String
  ServiceLineDescr : String
  SrNo : String
  WarrantyEndDate : String
  WarrantyType : String
  WarrantyTypeDescription : String
  deriving DecidableEq, Repr

/-- Go's zero value of `SerialNumberRecord`. -/
def SerialNumberRecord.zero : SerialNumberRecord :=
  { BasePidList := [],
    ContractSiteCustomerName := "",
    ContractSiteAddress1 := "",
    ContractSiteCity := "",
    ContractSiteStateProvince := "",
    ContractSiteCountry := "",
    CoveredProductLineEndDate := "",
    ID := "",
    IsCovered := "",
    OrderablePidList := [],
    ParentSrNo := "",
    ServiceContractNumber := "",
    ServiceLineDescr := "",
    SrNo := "",
    WarrantyEndDate := "",
    WarrantyType := "",
    WarrantyTypeDescription := "" }

/-- The fields of `SerialNumberRecord` with their `json` tags, in declaration order. -/
def SerialNumberRecord.fields : List (FieldSpec SerialNumberRecord) :=
  [ field "base_pid_list" (fun r => r.BasePidList) (fun r x => { r with BasePidList := x }) (decodeSlice (decodeStruct BasePidEntry.fields) BasePidEntry.zero),
    field "contract_site_customer_name" (fun r => r.ContractSiteCustomerName) (fun r x => { r with ContractSiteCustomerName := x }) decodeString,
    field "contract_site_address1" (fun r => r.ContractSiteAddress1) (fun r x => { r with ContractSiteAddress1 := x }) decodeString,
    field "contract_site_city" (fun r => r.ContractSiteCity) (fun r x => { r with ContractSiteCity := x }) decodeString,
    field "contract_site_state_province" (fun r => r.ContractSiteStateProvince) (fun r x => { r with ContractSiteStateProvince := x }) decodeString,
    field "contract_site_country" (fun r => r.ContractSiteCountry) (fun r x => { r with ContractSiteCountry := x }) decodeString,
    field "covered_product_line_end_date" (fun r => r.CoveredProductLineEndDate) (fun r x => { r with CoveredProductLineEndDate := x }) decodeString,
    field "id" (fun r => r.ID) (fun r x => { r with ID := x }) decodeString,
    field "is_covered" (fun r => r.IsCovered) (fun r x => { r with IsCovered := x }) decodeString,
    field "orderable_pid_list" (fun r => r.OrderablePidList) (fun r x => { r with OrderablePidList := x }) (decodeSlice (decodeStruct OrderablePidEntry.fields) OrderablePidEntry.zero),
    field "parent_sr_no" (fun r => r.ParentSrNo) (fun r x => { r with ParentSrNo := x }) decodeString,
    field "service_contract_number" (fun r => r.ServiceContractNumber) (fun r x => { r with ServiceContractNumber := x }) decodeString,
    field "service_line_descr" (fun r => r.ServiceLineDescr) (fun r x => { r with ServiceLineDescr := x }) decodeString,
    field "sr_no" (fun r => r.SrNo) (fun r x => { r with SrNo := x }) decodeString,
    field "warranty_end_date" (fun r => r.WarrantyEndDate) (fun r x => { r with WarrantyEndDate := x }) decodeString,
    field "warranty_type" (fun r => r.WarrantyType) (fun r x => { r with WarrantyType := x }) decodeString,
    field "warranty_type_description" (fun r => r.WarrantyTypeDescription) (fun r x => { r with WarrantyTypeDescription := x }) decodeString ]

/-- The coverage summary (`type Sn2infoSummary struct`). -/
structure Sn2infoSummary where
  PaginationResponseRecord : PaginationResponseRecord
  SerialNumbers : List SerialNumberRecord
  deriving DecidableEq, Repr

/-- Go's zero value of `Sn2infoSummary`. -/
def Sn2infoSummary.zero : Sn2infoSummary :=
  { PaginationResponseRecord := PaginationResponseRecord.zero,
    SerialNumbers := [] }

/-- The fields of `Sn2infoSummary` with their `json` tags, in declaration order. -/
def Sn2infoSummary.fields : List (FieldSpec Sn2infoSummary) :=
  [ field "pagination_response_record" (fun r => r.PaginationResponseRecord) (fun r x => { r with PaginationResponseRecord := x }) (decodeStruct PaginationResponseRecord.fields),
    field "serial_numbers" (fun r => r.SerialNumbers) (fun r x => { r with SerialNumbers := x }) (decodeSlice (decodeStruct SerialNumberRecord.fields) SerialNumberRecord.zero) ]

/-- The anonymous struct of the field `Dimensions`. -/
structure Dimensions where
  DimensionsFormat : String
  DimensionsValue : String
  deriving DecidableEq, Repr

/-- Go's zero value of `Dimensions`. -/
def Dimensions.zero : Dimensions :=
  { DimensionsFormat := "",
    DimensionsValue := "" }

/-- The fields of `Dimensions` with their `json` tags, in declaration order. -/
def Dimensions.fields : List (FieldSpec Dimensions) :=
  [ field "dimensions_format" (fun r => r.DimensionsFormat) (fun r x => { r with DimensionsFormat := x }) decodeString,
    field "dimensions_value" (fun r => r.DimensionsValue) (fun r x => { r with DimensionsValue := x }) decodeString ]

/-- The anonymous struct of the field `RichMediaUrls`. -/
structure RichMediaUrls where
  SmallImageURL : String
  LargeImageURL : String
  deriving DecidableEq, Repr

/-- Go's zero value of `RichMediaUrls`. -/
def RichMediaUrls.zero : RichMediaUrls :=
  { SmallImageURL := "",
    LargeImageURL := "" }

/-- The fields of `RichMediaUrls` with their `json` tags, in declaration order. -/
def RichMediaUrls.fields : List (FieldSpec RichMediaUrls) :=
  [ field "small_image_url" (fun r => r.SmallImageURL) (fun r x => { r with SmallImageURL := x }) decodeString,
    field "large_image_url" (fun r => r.LargeImageURL) (fun r x => { r with LargeImageURL := x }) decodeString ]

/-- Element type of `ProductInfoSummary.ProductList`. -/
structure ProductRecord where
  ID : String
  SrNo : String
  BasePid : String
  OrderablePid : String
  ProductName : String
  ProductType : String
  ProductSeries : String
  ProductCategory : String
  ProductSubcategory : String
  ReleaseDate : String
  OrderableStatus : String
  Dimensions : Dimensions
  Weight : String
  FormFactor : String
  ProductSupportPage : String
  VisioStencilURL : String
  RichMediaUrls : RichMediaUrls
  deriving DecidableEq, Repr

/-- Go's zero value of `ProductRecord`. -/
def ProductRecord.zero : ProductRecord :=
  { ID := "",
    SrNo := "",
    BasePid := "",
    OrderablePid := "",
    ProductName := "",
    ProductType := "",
    ProductSeries := "",
    ProductCategory := "",
    ProductSubcategory := "",
    ReleaseDate := "",
    OrderableStatus := "",
    Dimensions := Dimensions.zero,
    Weight := "",
    FormFactor := "",
    ProductSupportPage := "",
    VisioStencilURL := "",
    RichMediaUrls := RichMediaUrls.zero }

/-- The fields of `ProductRecord` with their `json` tags, in declaration order. -/
def ProductRecord.fields : List (FieldSpec ProductRecord) :=
  [ field "id" (fun r => r.ID) (fun r x => { r with ID := x }) decodeString,
    field "sr_no" (fun r => r.SrNo) (fun r x => { r with SrNo := x }) decodeString,
    field "base_pid" (fun r => r.BasePid) (fun r x => { r with BasePid := x }) decodeString,
    field "orderable_pid" (fun r => r.OrderablePid) (fun r x => { r with OrderablePid := x }) decodeString,
    field "product_name" (fun r => r.ProductName) (fun r x => { r with ProductName := x }) decodeString,
    field "product_type" (fun r => r.ProductType) (fun r x => { r with ProductType := x }) decodeString,
    field "product_series" (fun r => r.ProductSeries) (fun r x => { r with ProductSeries := x }) decodeString,
    field "product_category" (fun r => r.ProductCategory) (fun r x => { r with ProductCategory := x }) decodeString,
    field "product_subcategory" (fun r => r.ProductSubcategory) (fun r x => { r with ProductSubcategory := x }) decodeString,
    field "release_date" (fun r => r.ReleaseDate) (fun r x => { r with ReleaseDate := x }) decodeString,
    field "orderable_status" (fun r => r.OrderableStatus) (fun r x => { r with OrderableStatus := x }) decodeString,
    field "dimensions" (fun r => r.Dimensions) (fun r x => { r with Dimensions := x }) (decodeStruct Dimensions.fields),
    field "weight" (fun r => r.Weight) (fun r x => { r with Weight := x }) decodeString,
    field "form_factor" (fun r => r.FormFactor) (fun r x => { r with FormFactor := x }) decodeString,
    field "product_support_page" (fun r => r.ProductSupportPage) (fun r x => { r with ProductSupportPage := x }) decodeString,
    field "visio_stencil_url" (fun r => r.VisioStencilURL) (fun r x => { r with VisioStencilURL := x }) decodeString,
    field "rich_media_urls" (fun r => r.RichMediaUrls) (fun r x => { r with RichMediaUrls := x }) (decodeStruct RichMediaUrls.fields) ]

/-- The product information summary (`type ProductInfoSummary struct`). -/
structure ProductInfoSummary where
  PaginationResponseRecord : PaginationResponseRecord
  ProductList : List ProductRecord
  deriving DecidableEq, Repr

/-- Go's zero value of `ProductInfoSummary`. -/
def ProductInfoSummary.zero : ProductInfoSummary :=
  { PaginationResponseRecord := PaginationResponseRecord.zero,
    ProductList := [] }

/-- The fields of `ProductInfoSummary` with their `json` tags, in declaration order. -/
def ProductInfoSummary.fields : List (FieldSpec ProductInfoSummary) :=
  [ field "pagination_response_record" (fun r => r.PaginationResponseRecord) (fun r x => { r with PaginationResponseRecord := x }) (decodeStruct PaginationResponseRecord.fields),
    field "product_list" (fun r => r.ProductList) (fun r x => { r with ProductList := x }) (decodeSlice (decodeStruct ProductRecord.fields) ProductRecord.zero) ]

/-! ## The environment of the program -/

/-- A request as handed to `http.DefaultClient.Do`. -/
structure Request where
  method : String
  url : String
  header : List (String × String)
  body : Option String
  deriving DecidableEq, Repr

/-- What the program can observe of an `*http.Response`: the status code, the
bytes `ioutil.ReadAll(rsp.Body)` delivers, and the error of that read (which
the program drops). -/
structure Response where
  status : Nat
  body : String
  readErr : Option String
  deriving DecidableEq, Repr

/-- A stubbed transport: answers a request, given the requests made before it,
with a response or a network error. -/
abbrev Transport := List Request → Request → Except String Response

/-- The library functions whose results are taken as given. -/
structure GoLib where
  /-- The error, if any, with which `http.NewRequest` rejects a URL. -/
  newRequestErr : String → Option String
  /-- The target URL of a request built by `http.NewRequest` from the given
  string, as the request is sent: the string as `url.Parse` reads it and
  `net/url` writes it again (re-escaped, for instance a space as `%20`). -/
  requestURL : String → String
  /-- `json.Indent(&out, src, linePrefix, indent)`: the bytes in `out` and the error. -/
  jsonIndent : String → String → String → String × Option String

/-- `h.Set(key, value)` on a header whose keys are in canonical form. -/
def Header.set (key value : String) : List (String × String) → List (String × String)
  | [] => [(key, value)]
  | (k, v) :: rest => if k = key then (key, value) :: rest else (k, v) :: Header.set key value rest

/-- The state a run goes through: the package variable `debug`, the requests
handed to the transport so far and the writes to standard output so far
(both oldest first). -/
structure World where
  debug : Bool
  trace : List Request
  stdout : List String
  deriving DecidableEq, Repr

/-- The state at process start (`var debug = false`). -/
def World.init : World := { debug := false, trace := [], stdout := [] }

/-- How `main` ends: by returning, or through `log.Fatal` (exit status 1) with
an error or with a message. -/
inductive Exit where
  | ok : Exit
  | fatalErr (e : Err) : Exit
  | fatalMsg (msg : String) : Exit
  deriving DecidableEq, Repr

/-- The exit status of the process. -/
def Exit.status : Exit → Nat
  | Exit.ok => 0
  | Exit.fatalErr _ => 1
  | Exit.fatalMsg _ => 1

/-! ## The program -/

def SsoUrl : String := "https://cloudsso.cisco.com/as/token.oauth2"

def Sn2infoStatusUrl : String :=
  "https://api.cisco.com/sn2info/v2/coverage/summary/serial_numbers/"

def ProductInfoUrl : String :=
  "https://api.cisco.com/product/v1/information/serial_numbers/"

/-- The form body `auth` builds: `params` in the source. -/
def authParams (clientId clientSecret grantType : String) : String :=
  "client_id=" ++ clientId ++ "&" ++ "client_secret=" ++ clientSecret ++ "&" ++
    "grant_type=" ++ grantType

/-- The request `auth` hands to the transport: built by `http.NewRequest` from
the URL string, so that it carries the URL as `net/url` parsed it. -/
def authRequest (lib : GoLib) (url clientId clientSecret grantType : String) : Request :=
  { method := "POST", url := lib.requestURL url,
    header := Header.set "Content-Type" "application/x-www-form-urlencoded" [],
    body := some (authParams clientId clientSecret grantType) }

/-- The function `auth`: returns the token record and the error. -/
def auth (lib : GoLib) (tr : Transport) (url clientId clientSecret grantType : String)
    (w : World) : (OAuth × Option Err) × World :=
  match lib.newRequestErr url with
  | some msg => ((OAuth.zero, some (Err.badURL msg)), w)
  | none =>
    match tr w.trace (authRequest lib url clientId clientSecret grantType) with
    | Except.error msg =>
      ((OAuth.zero, some (Err.network msg)),
        { w with trace := w.trace ++ [authRequest lib url clientId clientSecret grantType] })
    | Except.ok resp =>
      (unmarshal OAuth.fields resp.body OAuth.zero,
        { w with trace := w.trace ++ [authRequest lib url clientId clientSecret grantType] })

/-- The function `prettyprint`. -/
def prettyprint (lib : GoLib) (b : String) : String × Option String :=
  lib.jsonIndent b "" "  "

/-- The request `send_request` hands to the transport: built by
`http.NewRequest` from the URL string, so that it carries the URL as `net/url`
parsed it. -/
def getRequest (lib : GoLib) (url authToken : String) : Request :=
  { method := "GET", url := lib.requestURL url,
    header := Header.set "Authorization" ("Bearer " ++ authToken)
      (Header.set "Accept" "application/json" []),
    body := none }

/-- The state after the debug line of `send_request`. -/
def announce (url : String) (w : World) : World :=
  if w.debug then { w with stdout := w.stdout ++ ["====>" ++ url ++ "\n"] } else w

/-- The function `send_request`. -/
def send_request (lib : GoLib) (tr : Transport) (url authToken : String) (w : World) :
    Except Err Response × World :=
  match lib.newRequestErr url with
  | some msg => (Except.error (Err.badURL msg), announce url w)
  | none =>
    match tr (announce url w).trace (getRequest lib url authToken) with
    | Except.error msg =>
      (Except.error (Err.network msg),
        { announce url w with trace := (announce url w).trace ++ [getRequest lib url authToken] })
    | Except.ok resp =>
      (Except.ok resp,
        { announce url w with trace := (announce url w).trace ++ [getRequest lib url authToken] })

/-- The tail shared by `SN2INFO_request` and `ProductInfo_request`: send the
request, read the body, unmarshal it into a zero record, and in debug mode
print the indented body. -/
def request {α : Type} (fields : List (FieldSpec α)) (zero : α) (lib : GoLib) (tr : Transport)
    (url serial authToken : String) (w : World) : (α × Option Err) × World :=
  match send_request lib tr (url ++ serial) authToken w with
  | (Except.error e, w1) => ((zero, some e), w1)
  | (Except.ok resp, w1) =>
    match unmarshal fields resp.body zero with
    | (r, some e) => ((r, some e), w1)
    | (r, none) =>
      ((r, none),
        if w1.debug then { w1 with stdout := w1.stdout ++ [(prettyprint lib resp.body).1] }
        else w1)

/-- The function `SN2INFO_request`. -/
def SN2INFO_request (lib : GoLib) (tr : Transport) (url serial authToken : String)
    (w : World) : (Sn2infoSummary × Option Err) × World :=
  request Sn2infoSummary.fields Sn2infoSummary.zero lib tr url serial authToken w

/-- The function `ProductInfo_request`. -/
def ProductInfo_request (lib : GoLib) (tr : Transport) (url serial authToken : String)
    (w : World) : (ProductInfoSummary × Option Err) × World :=
  request ProductInfoSummary.fields ProductInfoSummary.zero lib tr url serial authToken w

/-- The two requests of `main` once the serial number and the token are known. -/
def lookups (lib : GoLib) (tr : Transport) (serialNumber authToken : String) (debugFlag : Bool)
    (w : World) : Exit × World :=
  match SN2INFO_request lib tr Sn2infoStatusUrl serialNumber authToken
      { w with debug := w.debug || debugFlag } with
  | ((_, some e), w1) => (Exit.fatalErr e, w1)
  | ((_, none), w1) =>
    match ProductInfo_request lib tr ProductInfoUrl serialNumber authToken w1 with
    | ((_, some e), w2) => (Exit.fatalErr e, w2)
    | ((_, none), w2) => (Exit.ok, w2)

/-- The part of `main` after the token is resolved: the serial number check,
the debug flag and the two requests. -/
def afterToken (lib : GoLib) (tr : Transport) (serial authToken : String) (debugFlag : Bool)
    (w : World) : Exit × World :=
  if serial = "" then (Exit.fatalMsg "Specify a serial number via the -serial flag", w)
  else lookups lib tr serial authToken debugFlag w

/-- The first block of `main`: the bearer token comes from `AUTH_TOKEN`, or
from `auth` (whose token is printed) when that variable is empty. -/
def resolveToken (lib : GoLib) (tr : Transport) (getenv : String → String) :
    Except Err String × World :=
  if getenv "AUTH_TOKEN" = "" then
    match auth lib tr SsoUrl (getenv "CLIENT_ID") (getenv "CLIENT_SECRET") "client_credentials"
        World.init with
    | ((_, some e), w1) => (Except.error e, w1)
    | ((token, none), w1) =>
      (Except.ok token.AccessToken, { w1 with stdout := w1.stdout ++ [token.AccessToken ++ "\n"] })
  else (Except.ok (getenv "AUTH_TOKEN"), World.init)

/-- The function `main`, given the environment (`os.Getenv`) and the values of
the flags `-serial` and `-debug`. -/
def main (lib : GoLib) (tr : Transport) (getenv : String → String) (serial : String)
    (debugFlag : Bool) : Exit × World :=
  match resolveToken lib tr getenv with
  | (Except.error e, w) => (Exit.fatalErr e, w)
  | (Except.ok authToken, w) => afterToken lib tr serial authToken debugFlag w

/-! ## Stubs for concrete runs -/

/-- A library stub: `http.NewRequest` accepts every URL and carries it as it is
written, and `json.Indent` returns its input unchanged. -/
def plainLib : GoLib :=
  { newRequestErr := fun _ => none, requestURL := fun url => url,
    jsonIndent := fun src _ _ => (src, none) }

/-- The characters of a URL with every space written as `%20`. -/
def escapeSpaces : List Char → List Char
  | [] => []
  | c :: cs => if c = ' ' then '%' :: '2' :: '0' :: escapeSpaces cs else c :: escapeSpaces cs

/-- A library stub that accepts every URL and, as `net/url` does for a space in
the path of a URL, carries the space as `%20`. -/
def spaceEscapingLib : GoLib :=
  { newRequestErr := fun _ => none, requestURL := fun url => String.mk (escapeSpaces url.data),
    jsonIndent := fun src _ _ => (src, none) }

/-- A transport stub that answers every request with the given status and body. -/
def answer (status : Nat) (body : String) : Transport :=
  fun _ _ => Except.ok { status := status, body := body, readErr := none }

/-- An environment with no variable set. -/
def emptyEnv : String → String := fun _ => ""

/-- An environment in which only `AUTH_TOKEN` is set. -/
def tokenEnv (token : String) : String → String :=
  fun name => if name = "AUTH_TOKEN" then token else ""

/-- A token response body with an access token and a token type. -/
def tokenBody : String := "\x7b\"access_token\":\"abc\",\"token_type\":\"Bearer\"\x7d"

/-- A body that decodes as a coverage summary but not as product information:
`product_list` is a number. -/
def coverageOnlyBody : String := "\x7b\"product_list\":5\x7d"

/-- Two transports answer alike up to the status code and the read error:
the same failures, and on success the same body. -/
def SameBodies (tr1 tr2 : Transport) : Prop :=
  ∀ (seen : List Request) (r : Request),
    match tr1 seen r, tr2 seen r with
    | Except.ok a, Except.ok b => a.body = b.body
    | Except.error m, Except.error n => m = n
    | _, _ => False

/-! ## Form decoding (`application/x-www-form-urlencoded`, Go `url.ParseQuery`) -/

/-- The UTF-8 bytes of one character. -/
def utf8Char (c : Char) : List Nat :=
  if c.toNat < 0x80 then [c.toNat]
  else if c.toNat < 0x800 then [0xC0 + c.toNat / 0x40, 0x80 + c.toNat % 0x40]
  else if c.toNat < 0x10000 then
    [0xE0 + c.toNat / 0x1000, 0x80 + c.toNat / 0x40 % 0x40, 0x80 + c.toNat % 0x40]
  else
    [0xF0 + c.toNat / 0x40000, 0x80 + c.toNat / 0x1000 % 0x40, 0x80 + c.toNat / 0x40 % 0x40,
      0x80 + c.toNat % 0x40]

/-- The bytes of a Go string. -/
def utf8Bytes (s : String) : List Nat :=
  s.data.foldr (fun c acc => utf8Char c ++ acc) []

/-- Value of a byte that is a hexadecimal digit. -/
def hexByte (b : Nat) : Option Nat :=
  if 48 ≤ b ∧ b ≤ 57 then some (b - 48)
  else if 97 ≤ b ∧ b ≤ 102 then some (b - 97 + 10)
  else if 65 ≤ b ∧ b ≤ 70 then some (b - 65 + 10)
  else none

/-- `url.QueryUnescape`: `+` is a space, `%XX` is the byte `XX`, and a `%` not
followed by two hexadecimal digits is an error. -/
def queryUnescape : List Nat → Option (List Nat)
  | [] => some []
  | b :: rest =>
    if b = 37 then
      match rest with
      | x :: y :: rest1 =>
        match hexByte x, hexByte y, queryUnescape rest1 with
        | some hi, some lo, some out => some ((hi * 16 + lo) :: out)
        | _, _, _ => none
      | _ => none
    else
      match queryUnescape rest with
      | some out => some ((if b = 43 then 32 else b) :: out)
      | none => none

/-- The input up to the first occurrence of `sep`, and the input after it. -/
def cutAt (sep : Nat) : List Nat → List Nat × List Nat
  | [] => ([], [])
  | b :: rest => if b = sep then ([], rest) else ((cutAt sep rest).1.cons b, (cutAt sep rest).2)

/-- The pieces of the input between occurrences of `sep`. -/
def splitAt (sep : Nat) : List Nat → List (List Nat)
  | [] => [[]]
  | b :: rest =>
    if b = sep then [] :: splitAt sep rest
    else
      match splitAt sep rest with
      | [] => [[b]]
      | piece :: pieces => (b :: piece) :: pieces

/-- One `&`-separated piece of a query, as `url.ParseQuery` treats it: an empty
piece gives nothing; a piece with a semicolon or a bad escape is an error;
otherwise the piece is cut at its first `=` and both halves are unescaped. -/
def parsePiece (piece : List Nat) : Option (Option (List Nat × List Nat)) :=
  if 59 ∈ piece then none
  else if piece = [] then some none
  else
    match queryUnescape (cutAt 61 piece).1, queryUnescape (cutAt 61 piece).2 with
    | some k, some v => some (some (k, v))
    | _, _ => none

/-- `url.ParseQuery`: the key/value pairs of a form body in input order, and
whether some piece was in error (such pieces are dropped). -/
def parseQuery (body : List Nat) : List (List Nat × List Nat) × Bool :=
  (splitAt 38 body).foldr
    (fun piece acc =>
      match parsePiece piece with
      | none => (acc.1, true)
      | some none => acc
      | some (some kv) => (kv :: acc.1, acc.2))
    ([], false)

/-! ## The coverage schema, read key by key

The reading of a JSON object that the specification describes: every field of
the record is the value of the member named by the field's tag. -/

/-- The tags of a field table. -/
def tagsOf {α : Type} (fields : List (FieldSpec α)) : List String :=
  fields.map (fun f => f.name)

/-- The keys of an object are pairwise distinct, and a key that equals a tag up
to case is that tag. -/
def cleanKeys (tags : List String) (m : List (String × JSON)) : Bool :=
  decide ((m.map Prod.fst).Nodup) &&
    (m.map Prod.fst).all (fun k => tags.all (fun t => foldName t != foldName k || t == k))

/-- An absent member, or a JSON string. -/
def okString : Option JSON → Bool
  | none => true
  | some (JSON.str _) => true
  | some _ => false

/-- An absent member, or an integer literal within Go's `int`. -/
def okInt : Option JSON → Bool
  | none => true
  | some (JSON.int i) => decide (inIntRange i)
  | some _ => false

/-- An absent member, or an object that satisfies `p`. -/
def okStruct (p : List (String × JSON) → Bool) : Option JSON → Bool
  | none => true
  | some (JSON.obj m) => p m
  | some _ => false

/-- A JSON value that is an object satisfying `p`. -/
def okElement (p : List (String × JSON) → Bool) : JSON → Bool
  | JSON.obj m => p m
  | _ => false

/-- An absent member, or an array of objects that satisfy `p`. -/
def okList (p : List (String × JSON) → Bool) : Option JSON → Bool
  | none => true
  | some (JSON.arr xs) => xs.all (okElement p)
  | some _ => false

/-- A member stored into a field: the decoded value when the member is present,
the field's old value when it is absent. -/
def storeMember {β : Type} (dec : Decoder β) (old : β) : Option JSON → β
  | some v => (dec v old).1
  | none => old

/-- The string under a key (empty when the member is absent). -/
def stringOf : Option JSON → String
  | some (JSON.str s) => s
  | _ => ""

/-- The integer under a key (zero when the member is absent). -/
def intOf : Option JSON → Int
  | some (JSON.int i) => i
  | _ => 0

/-- The record under a key (the zero record when the member is absent). -/
def structOf {α : Type} (read : List (String × JSON) → α) (zero : α) : Option JSON → α
  | some (JSON.obj m) => read m
  | _ => zero

/-- The record an array element stands for. -/
def elementOf {α : Type} (read : List (String × JSON) → α) (zero : α) : JSON → α
  | JSON.obj m => read m
  | _ => zero

/-- The records under a key, in order (none when the member is absent). -/
def listOf {α : Type} (read : List (String × JSON) → α) (zero : α) : Option JSON → List α
  | some (JSON.arr xs) => xs.map (elementOf read zero)
  | _ => []

/-- The `PaginationResponseRecord` an object stands for: each field is the value of the member named by its tag. -/
def PaginationResponseRecord.ofMembers (m : List (String × JSON)) : PaginationResponseRecord :=
  { LastIndex := intOf (m.lookup "last_index"),
    PageIndex := intOf (m.lookup "page_index"),
    PageRecords := intOf (m.lookup "page_records"),
    SelfLink := stringOf (m.lookup "self_link"),
    Title := stringOf (m.lookup "title"),
    TotalRecords := intOf (m.lookup "total_records") }

/-- The object is a well-formed `PaginationResponseRecord` of the schema: clean keys, and every member that is present has the type of its field. -/
def PaginationResponseRecord.conforms (m : List (String × JSON)) : Bool :=
  cleanKeys (tagsOf PaginationResponseRecord.fields) m &&
    (okInt (m.lookup "last_index") &&
    okInt (m.lookup "page_index") &&
    okInt (m.lookup "page_records") &&
    okString (m.lookup "self_link") &&
    okString (m.lookup "title") &&
    okInt (m.lookup "total_records"))

/-- The `BasePidEntry` an object stands for: each field is the value of the member named by its tag. -/
def BasePidEntry.ofMembers (m : List (String × JSON)) : BasePidEntry :=
  { BasePid := stringOf (m.lookup "base_pid") }

/-- The object is a well-formed `BasePidEntry` of the schema: clean keys, and every member that is present has the type of its field. -/
def BasePidEntry.conforms (m : List (String × JSON)) : Bool :=
  cleanKeys (tagsOf BasePidEntry.fields) m &&
    (okString (m.lookup "base_pid"))

/-- The `OrderablePidEntry` an object stands for: each field is the value of the member named by its tag. -/
def OrderablePidEntry.ofMembers (m : List (String × JSON)) : OrderablePidEntry :=
  { ItemDescription := stringOf (m.lookup "item_description"),
    ItemPosition := stringOf (m.lookup "item_position"),
    ItemType := stringOf (m.lookup "item_type"),
    OrderablePid := stringOf (m.lookup "orderable_pid"),
    PillarCode := stringOf (m.lookup "pillar_code") }

/-- The object is a well-formed `OrderablePidEntry` of the schema: clean keys, and every member that is present has the type of its field. -/
def OrderablePidEntry.conforms (m : List (String × JSON)) : Bool :=
  cleanKeys (tagsOf OrderablePidEntry.fields) m &&
    (okString (m.lookup "item_description") &&
    okString (m.lookup "item_position") &&
    okString (m.lookup "item_type") &&
    okString (m.lookup "orderable_pid") &&
    okString (m.lookup "pillar_code"))

/-- The `SerialNumberRecord` an object stands for: each field is the value of the member named by its tag. -/
def SerialNumberRecord.ofMembers (m : List (String × JSON)) : SerialNumberRecord :=
  { BasePidList := listOf BasePidEntry.ofMembers BasePidEntry.zero (m.lookup "base_pid_list"),
    ContractSiteCustomerName := stringOf (m.lookup "contract_site_customer_name"),
    ContractSiteAddress1 := stringOf (m.lookup "contract_site_address1"),
    ContractSiteCity := stringOf (m.lookup "contract_site_city"),
    ContractSiteStateProvince := stringOf (m.lookup "contract_site_state_province"),
    ContractSiteCountry := stringOf (m.lookup "contract_site_country"),
    CoveredProductLineEndDate := stringOf (m.lookup "covered_product_line_end_date"),
    ID := stringOf (m.lookup "id"),
    IsCovered := stringOf (m.lookup "is_covered"),
    OrderablePidList := listOf OrderablePidEntry.ofMembers OrderablePidEntry.zero (m.lookup "orderable_pid_list"),
    ParentSrNo := stringOf (m.lookup "parent_sr_no"),
    ServiceContractNumber := stringOf (m.lookup "service_contract_number"),
    ServiceLineDescr := stringOf (m.lookup "service_line_descr"),
    SrNo := stringOf (m.lookup "sr_no"),
    WarrantyEndDate := stringOf (m.lookup "warranty_end_date"),
    WarrantyType := stringOf (m.lookup "warranty_type"),
    WarrantyTypeDescription := stringOf (m.lookup "warranty_type_description") }

/-- The object is a well-formed `SerialNumberRecord` of the schema: clean keys, and every member that is present has the type of its field. -/
def SerialNumberRecord.conforms (m : List (String × JSON)) : Bool :=
  cleanKeys (tagsOf SerialNumberRecord.fields) m &&
    (okList BasePidEntry.conforms (m.lookup "base_pid_list") &&
    okString (m.lookup "contract_site_customer_name") &&
    okString (m.lookup "contract_site_address1") &&
    okString (m.lookup "contract_site_city") &&
    okString (m.lookup "contract_site_state_province") &&
    okString (m.lookup "contract_site_country") &&
    okString (m.lookup "covered_product_line_end_date") &&
    okString (m.lookup "id") &&
    okString (m.lookup "is_covered") &&
    okList OrderablePidEntry.conforms (m.lookup "orderable_pid_list") &&
    okString (m.lookup "parent_sr_no") &&
    okString (m.lookup "service_contract_number") &&
    okString (m.lookup "service_line_descr") &&
    okString (m.lookup "sr_no") &&
    okString (m.lookup "warranty_end_date") &&
    okString (m.lookup "warranty_type") &&
    okString (m.lookup "warranty_type_description"))

/-- The `Sn2infoSummary` an object stands for: each field is the value of the member named by its tag. -/
def Sn2infoSummary.ofMembers (m : List (String × JSON)) : Sn2infoSummary :=
  { PaginationResponseRecord := structOf PaginationResponseRecord.ofMembers PaginationResponseRecord.zero (m.lookup "pagination_response_record"),
    SerialNumbers := listOf SerialNumberRecord.ofMembers SerialNumberRecord.zero (m.lookup "serial_numbers") }

/-- The object is a well-formed `Sn2infoSummary` of the schema: clean keys, and every member that is present has the type of its field. -/
def Sn2infoSummary.conforms (m : List (String × JSON)) : Bool :=
  cleanKeys (tagsOf Sn2infoSummary.fields) m &&
    (okStruct PaginationResponseRecord.conforms (m.lookup "pagination_response_record") &&
    okList SerialNumberRecord.conforms (m.lookup "serial_numbers"))

/-- The coverage body of the example: one entry with `sr_no` and `is_covered`. -/
def sampleCoverageBody : String :=
  "\x7b\"serial_numbers\":[\x7b\"sr_no\":\"SN123\",\"is_covered\":\"YES\"\x7d]\x7d"

/-- The members of the object `sampleCoverageBody`. -/
def sampleCoverageMembers : List (String × JSON) :=
  [("serial_numbers",
    JSON.arr [JSON.obj [("sr_no", JSON.str "SN123"), ("is_covered", JSON.str "YES")]])]

attribute [ext] PaginationResponseRecord BasePidEntry OrderablePidEntry SerialNumberRecord
  Sn2infoSummary

/-! ## Auxiliary facts about the request helpers -/

theorem announce_trace (url : String) (w : World) : (announce url w).trace = w.trace := by
  unfold announce; split <;> rfl

theorem announce_debug (url : String) (w : World) : (announce url w).debug = w.debug := by
  unfold announce; split <;> rfl

theorem announce_stdout (url : String) (w : World) :
    (announce url w).stdout = w.stdout ++ (if w.debug then ["====>" ++ url ++ "\n"] else []) := by
  unfold announce; split <;> simp

theorem request_of_badURL {α : Type} (fields : List (FieldSpec α)) (zero : α) (lib : GoLib)
    (tr : Transport) (url serial authToken : String) (w : World) (msg : String)
    (h : lib.newRequestErr (url ++ serial) = some msg) :
    request fields zero lib tr url serial authToken w =
      ((zero, some (Err.badURL msg)), announce (url ++ serial) w) := by
  simp [request, send_request, h]

theorem request_of_network {α : Type} (fields : List (FieldSpec α)) (zero : α) (lib : GoLib)
    (tr : Transport) (url serial authToken : String) (w : World) (msg : String)
    (h : lib.newRequestErr (url ++ serial) = none)
    (ht : tr w.trace (getRequest lib (url ++ serial) authToken) = Except.error msg) :
    request fields zero lib tr url serial authToken w =
      ((zero, some (Err.network msg)),
        { announce (url ++ serial) w with
          trace := w.trace ++ [getRequest lib (url ++ serial) authToken] }) := by
  simp [request, send_request, h, ht, announce_trace]

theorem request_of_response {α : Type} (fields : List (FieldSpec α)) (zero : α) (lib : GoLib)
    (tr : Transport) (url serial authToken : String) (w : World) (resp : Response)
    (h : lib.newRequestErr (url ++ serial) = none)
    (ht : tr w.trace (getRequest lib (url ++ serial) authToken) = Except.ok resp) :
    request fields zero lib tr url serial authToken w =
      (unmarshal fields resp.body zero,
        { debug := w.debug,
          trace := w.trace ++ [getRequest lib (url ++ serial) authToken],
          stdout := w.stdout ++ (if w.debug then ["====>" ++ (url ++ serial) ++ "\n"] else []) ++
            (if w.debug ∧ (unmarshal fields resp.body zero).2 = none then
              [(prettyprint lib resp.body).1] else []) }) := by
  rcases hd : unmarshal fields resp.body zero with ⟨r, _ | e⟩ <;>
    cases hw : w.debug <;>
    simp [request, send_request, h, ht, announce_trace, hd, announce, hw]

theorem request_trace {α : Type} (fields : List (FieldSpec α)) (zero : α) (lib : GoLib)
    (tr : Transport) (url serial authToken : String) (w : World) :
    (request fields zero lib tr url serial authToken w).2.trace =
      w.trace ++ (if lib.newRequestErr (url ++ serial) = none then
        [getRequest lib (url ++ serial) authToken] else []) := by
  cases h : lib.newRequestErr (url ++ serial) with
  | some msg => rw [request_of_badURL _ _ _ _ _ _ _ _ msg h]; simp [announce_trace]
  | none =>
    cases ht : tr w.trace (getRequest lib (url ++ serial) authToken) with
    | error msg => rw [request_of_network _ _ _ _ _ _ _ _ msg h ht]; simp
    | ok resp => rw [request_of_response _ _ _ _ _ _ _ _ resp h ht]; simp

theorem request_error_of_badURL {α : Type} (fields : List (FieldSpec α)) (zero : α) (lib : GoLib)
    (tr : Transport) (url serial authToken : String) (w : World)
    (h : lib.newRequestErr (url ++ serial) ≠ none) :
    (request fields zero lib tr url serial authToken w).1.2 ≠ none := by
  cases hu : lib.newRequestErr (url ++ serial) with
  | some msg => rw [request_of_badURL _ _ _ _ _ _ _ _ msg hu]; simp
  | none => exact absurd hu h

theorem request_stdout_quiet {α : Type} (fields : List (FieldSpec α)) (zero : α) (lib : GoLib)
    (tr : Transport) (url serial authToken : String) (w : World) (hq : w.debug = false) :
    (request fields zero lib tr url serial authToken w).2.stdout = w.stdout := by
  cases h : lib.newRequestErr (url ++ serial) with
  | some msg => rw [request_of_badURL _ _ _ _ _ _ _ _ msg h]; simp [announce_stdout, hq]
  | none =>
    cases ht : tr w.trace (getRequest lib (url ++ serial) authToken) with
    | error msg => rw [request_of_network _ _ _ _ _ _ _ _ msg h ht]; simp [announce_stdout, hq]
    | ok resp => rw [request_of_response _ _ _ _ _ _ _ _ resp h ht]; simp [hq]

/-- The trace of `lookups`: the requests made before, then the coverage GET if
its URL is accepted, then the product GET if the coverage decoder returned no
error and the product URL is accepted. -/
theorem lookups_trace (lib : GoLib) (tr : Transport) (serial authToken : String)
    (debugFlag : Bool) (w : World) :
    (lookups lib tr serial authToken debugFlag w).2.trace =
      w.trace ++
        (if lib.newRequestErr (Sn2infoStatusUrl ++ serial) = none then
          [getRequest lib (Sn2infoStatusUrl ++ serial) authToken] else []) ++
        (if (SN2INFO_request lib tr Sn2infoStatusUrl serial authToken
              { w with debug := w.debug || debugFlag }).1.2 = none ∧
            lib.newRequestErr (ProductInfoUrl ++ serial) = none then
          [getRequest lib (ProductInfoUrl ++ serial) authToken] else []) := by
  unfold lookups
  have h1 := request_trace Sn2infoSummary.fields Sn2infoSummary.zero lib tr Sn2infoStatusUrl
    serial authToken { w with debug := w.debug || debugFlag }
  rcases hc : SN2INFO_request lib tr Sn2infoStatusUrl serial authToken
      { w with debug := w.debug || debugFlag } with ⟨⟨r, _ | e⟩, w1⟩
  · have hc1 : request Sn2infoSummary.fields Sn2infoSummary.zero lib tr Sn2infoStatusUrl
        serial authToken { w with debug := w.debug || debugFlag } = ((r, none), w1) := hc
    rw [hc1] at h1
    have h2 := request_trace ProductInfoSummary.fields ProductInfoSummary.zero lib tr
      ProductInfoUrl serial authToken w1
    simp only [] at h1 ⊢
    rcases hp : ProductInfo_request lib tr ProductInfoUrl serial authToken w1 with
      ⟨⟨r2, _ | e2⟩, w2⟩
    all_goals
      have hp1 : request ProductInfoSummary.fields ProductInfoSummary.zero lib tr ProductInfoUrl
        serial authToken w1 = _ := hp
      rw [hp1] at h2
      simp only [] at h2 ⊢
      rw [h2, h1]
      simp
  · have hc1 : request Sn2infoSummary.fields Sn2infoSummary.zero lib tr Sn2infoStatusUrl
        serial authToken { w with debug := w.debug || debugFlag } = ((r, some e), w1) := hc
    rw [hc1] at h1
    simp only [] at h1 ⊢
    rw [h1]
    simp

/-- The trace of `resolveToken`: the token POST when `AUTH_TOKEN` is empty and
the token URL is accepted, and nothing otherwise. -/
theorem resolveToken_trace (lib : GoLib) (tr : Transport) (getenv : String → String) :
    (resolveToken lib tr getenv).2.trace =
      (if getenv "AUTH_TOKEN" = "" ∧ lib.newRequestErr SsoUrl = none then
        [authRequest lib SsoUrl (getenv "CLIENT_ID") (getenv "CLIENT_SECRET") "client_credentials"]
      else []) := by
  unfold resolveToken auth
  by_cases h : getenv "AUTH_TOKEN" = ""
  · simp only [h, if_true, true_and]
    cases hu : lib.newRequestErr SsoUrl with
    | some msg => simp [World.init]
    | none =>
      simp only []
      cases ht : tr World.init.trace
          (authRequest lib SsoUrl (getenv "CLIENT_ID") (getenv "CLIENT_SECRET") "client_credentials") with
      | error msg => simp [World.init]
      | ok resp =>
        simp only []
        rcases hd : unmarshal OAuth.fields resp.body OAuth.zero with ⟨tok, _ | e⟩ <;>
          simp [World.init]
  · simp [h, World.init]

/-! ## The driver without a serial number (C1) -/

/-- Claim C1 as stated fails: with no `-serial` flag and no `AUTH_TOKEN`, `main`
calls `auth` before it looks at the serial number, so the run ends fatally but
the trace of network calls holds the token POST. -/
theorem main_no_serial_posts :
    (main plainLib (answer 200 "{}") emptyEnv "" false).1.status = 1 ∧
    (main plainLib (answer 200 "{}") emptyEnv "" false).2.trace =
      [{ method := "POST", url := "https://cloudsso.cisco.com/as/token.oauth2",
         header := [("Content-Type", "application/x-www-form-urlencoded")],
         body := some "client_id=&client_secret=&grant_type=client_credentials" }] ∧
    (main plainLib (answer 200 "{}") emptyEnv "" false).2.trace ≠ [] := by
  decide

/-- Claim C1, amended: for every library behaviour, transport and environment,
a run of `main` with an empty serial number ends in a fatal exit (status 1) and
issues no GET; its trace of network calls is empty when `AUTH_TOKEN` is set,
and is exactly the token POST when `AUTH_TOKEN` is empty (and the token URL is
accepted by `http.NewRequest`). -/
theorem main_no_serial_trace (lib : GoLib) (tr : Transport) (getenv : String → String)
    (debugFlag : Bool) :
    (main lib tr getenv "" debugFlag).1.status = 1 ∧
    (main lib tr getenv "" debugFlag).2.trace =
      (if getenv "AUTH_TOKEN" = "" ∧ lib.newRequestErr SsoUrl = none then
        [authRequest lib SsoUrl (getenv "CLIENT_ID") (getenv "CLIENT_SECRET") "client_credentials"]
      else []) ∧
    (∀ r ∈ (main lib tr getenv "" debugFlag).2.trace, r.method = "POST") := by
  have ht := resolveToken_trace lib tr getenv
  have key : (main lib tr getenv "" debugFlag).1.status = 1 ∧
      (main lib tr getenv "" debugFlag).2.trace = (resolveToken lib tr getenv).2.trace := by
    unfold main afterToken
    rcases resolveToken lib tr getenv with ⟨_ | tok, w⟩ <;> simp [Exit.status]
  refine ⟨key.1, key.2.trans ht, ?_⟩
  intro r hr
  rw [key.2, ht] at hr
  split_ifs at hr
  · simp only [List.mem_singleton] at hr
    subst hr
    rfl
  · simp at hr

/-! ## The driver with `AUTH_TOKEN` set (C2) -/

/-- Claim C2: in every run of `main` with a non-empty `AUTH_TOKEN`, no request in
the call trace is a POST (the authenticator is never called): every request is
a GET whose headers are `Accept: application/json` and
`Authorization: Bearer <AUTH_TOKEN>`. -/
theorem main_env_token_only_gets (lib : GoLib) (tr : Transport) (getenv : String → String)
    (serial : String) (debugFlag : Bool) (h : getenv "AUTH_TOKEN" ≠ "") :
    ∀ r ∈ (main lib tr getenv serial debugFlag).2.trace,
      r.method = "GET" ∧ r.method ≠ "POST" ∧
      r.header = [("Accept", "application/json"),
        ("Authorization", "Bearer " ++ getenv "AUTH_TOKEN")] := by
  have hm : main lib tr getenv serial debugFlag =
      afterToken lib tr serial (getenv "AUTH_TOKEN") debugFlag World.init := by
    simp [main, resolveToken, h]
  intro r hr
  rw [hm] at hr
  unfold afterToken at hr
  split_ifs at hr with hs
  · simp [World.init] at hr
  · rw [lookups_trace] at hr
    simp only [World.init, List.nil_append, List.mem_append] at hr
    have shape : ∀ u : String, (getRequest lib u (getenv "AUTH_TOKEN")).method = "GET" ∧
        (getRequest lib u (getenv "AUTH_TOKEN")).method ≠ "POST" ∧
        (getRequest lib u (getenv "AUTH_TOKEN")).header = [("Accept", "application/json"),
          ("Authorization", "Bearer " ++ getenv "AUTH_TOKEN")] := by
      intro u
      refine ⟨rfl, ?_, ?_⟩
      · show "GET" ≠ "POST"
        decide
      · simp [getRequest, Header.set]
    rcases hr with hr | hr
    · split_ifs at hr
      · simp only [List.mem_singleton] at hr
        subst hr
        exact shape _
      · simp at hr
    · split_ifs at hr
      · simp only [List.mem_singleton] at hr
        subst hr
        exact shape _
      · simp at hr

/-- A run of `main` with `AUTH_TOKEN=tok` and serial number `SN1` over a
transport that answers `{}`: the hypothesis of `main_env_token_only_gets`
holds and its conclusion applies. -/
theorem main_env_token_only_gets_witness :
    tokenEnv "tok" "AUTH_TOKEN" ≠ "" ∧
    ∀ r ∈ (main plainLib (answer 200 "{}") (tokenEnv "tok") "SN1" false).2.trace,
      r.method = "GET" ∧ r.method ≠ "POST" ∧
      r.header = [("Accept", "application/json"),
        ("Authorization", "Bearer " ++ tokenEnv "tok" "AUTH_TOKEN")] :=
  ⟨by decide,
    main_env_token_only_gets plainLib (answer 200 "{}") (tokenEnv "tok") "SN1" false (by decide)⟩

/-! ## The shape of the GET request (C6) -/

/-- Claim C6 as stated fails: the program hands `http.NewRequest` the plain
concatenation of base URL and serial number, but the request carries the URL as
`net/url` parsed and re-escaped it.  For the serial number `A B` the request
that reaches the transport has the target `.../serial_numbers/A%20B`, which is
not the base URL followed by the serial number. -/
theorem request_url_is_escaped :
    (SN2INFO_request spaceEscapingLib (answer 200 "{}") Sn2infoStatusUrl "A B" "tok"
        World.init).2.trace =
      [{ method := "GET",
         url := "https://api.cisco.com/sn2info/v2/coverage/summary/serial_numbers/A%20B",
         header := [("Accept", "application/json"), ("Authorization", "Bearer tok")],
         body := none }] ∧
    (SN2INFO_request spaceEscapingLib (answer 200 "{}") Sn2infoStatusUrl "A B" "tok"
        World.init).2.trace.map (fun r => r.url) ≠ [Sn2infoStatusUrl ++ "A B"] := by
  decide

/-- Claim C6, amended: for every base URL, serial number and bearer token, what
`SN2INFO_request` and `ProductInfo_request` add to the trace of the transport is,
when `http.NewRequest` accepts the URL, exactly one request: its method is GET,
it is built from the base URL immediately followed by the serial number (plain
concatenation by the program) and carries that string as `net/url` parsed and
re-escaped it, its headers are `Accept: application/json` and
`Authorization: Bearer <token>`, and it has no body; nothing is added when the
URL is rejected. -/
theorem decoders_request_shape (lib : GoLib) (tr : Transport) (url serial authToken : String)
    (w : World) :
    (SN2INFO_request lib tr url serial authToken w).2.trace =
      w.trace ++ (if lib.newRequestErr (url ++ serial) = none then
        [{ method := "GET", url := lib.requestURL (url ++ serial),
           header := [("Accept", "application/json"), ("Authorization", "Bearer " ++ authToken)],
           body := none }] else []) ∧
    (ProductInfo_request lib tr url serial authToken w).2.trace =
      w.trace ++ (if lib.newRequestErr (url ++ serial) = none then
        [{ method := "GET", url := lib.requestURL (url ++ serial),
           header := [("Accept", "application/json"), ("Authorization", "Bearer " ++ authToken)],
           body := none }] else []) := by
  have hreq : getRequest lib (url ++ serial) authToken =
      { method := "GET", url := lib.requestURL (url ++ serial),
        header := [("Accept", "application/json"), ("Authorization", "Bearer " ++ authToken)],
        body := none } := by
    simp [getRequest, Header.set]
  unfold SN2INFO_request ProductInfo_request
  rw [request_trace, request_trace, hreq]
  exact ⟨rfl, rfl⟩

/-! ## Debug output (C9) -/

/-- Claim C9 as stated fails: in debug mode `send_request`, which the decoder
calls, first prints the line `====>` followed by the URL, so what the coverage
decoder emits for the body `{}` is that line followed by the indented body, not
the indented body alone. -/
theorem debug_output_has_url_line :
    String.join (SN2INFO_request plainLib (answer 200 "{}") Sn2infoStatusUrl "SN1" "tok"
      { debug := true, trace := [], stdout := [] }).2.stdout =
      "====>https://api.cisco.com/sn2info/v2/coverage/summary/serial_numbers/SN1\n{}" ∧
    (SN2INFO_request plainLib (answer 200 "{}") Sn2infoStatusUrl "SN1" "tok"
      { debug := true, trace := [], stdout := [] }).1.2 = none ∧
    String.join (SN2INFO_request plainLib (answer 200 "{}") Sn2infoStatusUrl "SN1" "tok"
      { debug := true, trace := [], stdout := [] }).2.stdout ≠ (prettyprint plainLib "{}").1 := by
  decide

/-- Claim C9, amended: when the request is sent and the transport returns a
response, then for each decoder on its own, if the response body decodes into
that decoder's record without error, the decoder with debug mode enabled writes
to standard output the line `====>` followed by the request URL, and then the raw
body as re-indented by `json.Indent` with an empty line start and a two-space
indent, byte for byte; with debug mode disabled the decoders write nothing,
whatever the outcome of the request. -/
theorem debug_output (lib : GoLib) (tr : Transport) (url serial authToken : String)
    (w : World) (resp : Response)
    (hurl : lib.newRequestErr (url ++ serial) = none)
    (hresp : tr w.trace (getRequest lib (url ++ serial) authToken) = Except.ok resp) :
    ((unmarshal Sn2infoSummary.fields resp.body Sn2infoSummary.zero).2 = none →
      (SN2INFO_request lib tr url serial authToken w).2.stdout =
        w.stdout ++ (if w.debug then
          ["====>" ++ (url ++ serial) ++ "\n", (lib.jsonIndent resp.body "" "  ").1] else [])) ∧
    ((unmarshal ProductInfoSummary.fields resp.body ProductInfoSummary.zero).2 = none →
      (ProductInfo_request lib tr url serial authToken w).2.stdout =
        w.stdout ++ (if w.debug then
          ["====>" ++ (url ++ serial) ++ "\n", (lib.jsonIndent resp.body "" "  ").1] else [])) ∧
    (∀ (url1 serial1 authToken1 : String) (w1 : World), w1.debug = false →
      (SN2INFO_request lib tr url1 serial1 authToken1 w1).2.stdout = w1.stdout ∧
      (ProductInfo_request lib tr url1 serial1 authToken1 w1).2.stdout = w1.stdout) := by
  refine ⟨?_, ?_, fun url1 serial1 authToken1 w1 hq =>
    ⟨request_stdout_quiet _ _ lib tr url1 serial1 authToken1 w1 hq,
      request_stdout_quiet _ _ lib tr url1 serial1 authToken1 w1 hq⟩⟩
  · intro hcov
    unfold SN2INFO_request
    rw [request_of_response _ _ _ _ _ _ _ _ resp hurl hresp]
    cases hd : w.debug <;> simp [hcov, prettyprint]
  · intro hprod
    unfold ProductInfo_request
    rw [request_of_response _ _ _ _ _ _ _ _ resp hurl hresp]
    cases hd : w.debug <;> simp [hprod, prettyprint]

/-- The hypotheses of `debug_output` hold for a transport that answers
`{"product_list":5}` in debug mode: the body decodes as a coverage summary (but
not as product information), and the coverage decoder writes the URL line and
then the indented body. -/
theorem debug_output_witness :
    (unmarshal Sn2infoSummary.fields coverageOnlyBody Sn2infoSummary.zero).2 = none ∧
    (unmarshal ProductInfoSummary.fields coverageOnlyBody ProductInfoSummary.zero).2 ≠ none ∧
    (SN2INFO_request plainLib (answer 200 coverageOnlyBody) Sn2infoStatusUrl "SN1" "tok"
        { debug := true, trace := [], stdout := [] }).2.stdout =
      [] ++ (if true then
        ["====>" ++ (Sn2infoStatusUrl ++ "SN1") ++ "\n",
          (plainLib.jsonIndent coverageOnlyBody "" "  ").1]
        else []) :=
  ⟨by decide, by decide,
    (debug_output plainLib (answer 200 coverageOnlyBody) Sn2infoStatusUrl "SN1" "tok"
      { debug := true, trace := [], stdout := [] }
      { status := 200, body := coverageOnlyBody, readErr := none } rfl rfl).1 (by decide)⟩

/-! ## The status code is not looked at (C10) -/

/-- Claim C10: the results of `auth`, `SN2INFO_request` and `ProductInfo_request`
(the record, the error and the state after the call) are the same over any two
transports that fail alike and whose responses carry equal bodies, whatever
their status codes are. -/
theorem status_code_ignored (lib : GoLib) (tr1 tr2 : Transport) (h : SameBodies tr1 tr2)
    (url a b c : String) (w : World) :
    auth lib tr1 url a b c w = auth lib tr2 url a b c w ∧
    SN2INFO_request lib tr1 url a b w = SN2INFO_request lib tr2 url a b w ∧
    ProductInfo_request lib tr1 url a b w = ProductInfo_request lib tr2 url a b w ∧
    (∀ (status : Nat) (body : String),
      (lib.newRequestErr url = none →
        (auth lib (answer status body) url a b c w).1 = unmarshal OAuth.fields body OAuth.zero) ∧
      (lib.newRequestErr (url ++ a) = none →
        (SN2INFO_request lib (answer status body) url a b w).1 =
            unmarshal Sn2infoSummary.fields body Sn2infoSummary.zero ∧
        (ProductInfo_request lib (answer status body) url a b w).1 =
            unmarshal ProductInfoSummary.fields body ProductInfoSummary.zero)) := by
  have hreq : ∀ {α : Type} (fields : List (FieldSpec α)) (zero : α),
      request fields zero lib tr1 url a b w = request fields zero lib tr2 url a b w := by
    intro α fields zero
    cases hu : lib.newRequestErr (url ++ a) with
    | some msg =>
      rw [request_of_badURL _ _ _ _ _ _ _ _ msg hu, request_of_badURL _ _ _ _ _ _ _ _ msg hu]
    | none =>
      have hs := h w.trace (getRequest lib (url ++ a) b)
      cases h1 : tr1 w.trace (getRequest lib (url ++ a) b) with
      | error m =>
        cases h2 : tr2 w.trace (getRequest lib (url ++ a) b) with
        | error n =>
          rw [h1, h2] at hs
          simp only [] at hs
          subst hs
          rw [request_of_network _ _ _ _ _ _ _ _ m hu h1,
            request_of_network _ _ _ _ _ _ _ _ m hu h2]
        | ok r2 => rw [h1, h2] at hs; exact hs.elim
      | ok r1 =>
        cases h2 : tr2 w.trace (getRequest lib (url ++ a) b) with
        | error n => rw [h1, h2] at hs; exact hs.elim
        | ok r2 =>
          rw [h1, h2] at hs
          simp only [] at hs
          rw [request_of_response _ _ _ _ _ _ _ _ r1 hu h1,
            request_of_response _ _ _ _ _ _ _ _ r2 hu h2, hs]
  refine ⟨?_, hreq _ _, hreq _ _, ?_⟩
  swap
  · intro status body
    refine ⟨fun hu => ?_, fun hu => ⟨?_, ?_⟩⟩
    · simp [auth, hu, answer]
    · unfold SN2INFO_request
      rw [request_of_response _ _ _ _ _ _ _ _ { status := status, body := body, readErr := none }
        hu rfl]
    · unfold ProductInfo_request
      rw [request_of_response _ _ _ _ _ _ _ _ { status := status, body := body, readErr := none }
        hu rfl]
  unfold auth
  cases hu : lib.newRequestErr url with
  | some msg => rfl
  | none =>
    have hs := h w.trace (authRequest lib url a b c)
    cases h1 : tr1 w.trace (authRequest lib url a b c) with
    | error m =>
      cases h2 : tr2 w.trace (authRequest lib url a b c) with
      | error n =>
        rw [h1, h2] at hs
        simp only [] at hs
        subst hs
        rfl
      | ok r2 => rw [h1, h2] at hs; exact hs.elim
    | ok r1 =>
      cases h2 : tr2 w.trace (authRequest lib url a b c) with
      | error n => rw [h1, h2] at hs; exact hs.elim
      | ok r2 =>
        rw [h1, h2] at hs
        simp only [] at hs
        simp only [hs]

/-- Two transports that answer `{}` with status 200 and with status 500 satisfy
the hypothesis of `status_code_ignored`; the three functions return the same
results over both, and `auth` reports the status-500 answer as a success. -/
theorem status_code_ignored_witness :
    SameBodies (answer 200 "{}") (answer 500 "{}") ∧
    (auth plainLib (answer 200 "{}") SsoUrl "id" "secret" "client_credentials" World.init =
      auth plainLib (answer 500 "{}") SsoUrl "id" "secret" "client_credentials" World.init ∧
    SN2INFO_request plainLib (answer 200 "{}") SsoUrl "id" "secret" World.init =
      SN2INFO_request plainLib (answer 500 "{}") SsoUrl "id" "secret" World.init ∧
    ProductInfo_request plainLib (answer 200 "{}") SsoUrl "id" "secret" World.init =
      ProductInfo_request plainLib (answer 500 "{}") SsoUrl "id" "secret" World.init) ∧
    (auth plainLib (answer 500 "{}") SsoUrl "id" "secret" "client_credentials" World.init).1.2 =
      none :=
  ⟨fun _ _ => rfl,
    ⟨(status_code_ignored plainLib (answer 200 "{}") (answer 500 "{}") (fun _ _ => rfl)
      SsoUrl "id" "secret" "client_credentials" World.init).1,
     (status_code_ignored plainLib (answer 200 "{}") (answer 500 "{}") (fun _ _ => rfl)
      SsoUrl "id" "secret" "client_credentials" World.init).2.1,
     (status_code_ignored plainLib (answer 200 "{}") (answer 500 "{}") (fun _ _ => rfl)
      SsoUrl "id" "secret" "client_credentials" World.init).2.2.1⟩,
    by decide⟩

/-! ## Decode errors (C4) -/

/-- The outcome of `lookups` when the coverage decoder returns an error: a fatal
exit with that error, in the state the decoder left. -/
theorem lookups_of_coverage_error (lib : GoLib) (tr : Transport) (serial authToken : String)
    (debugFlag : Bool) (w : World) (e : Err)
    (h : (SN2INFO_request lib tr Sn2infoStatusUrl serial authToken
      { w with debug := w.debug || debugFlag }).1.2 = some e) :
    lookups lib tr serial authToken debugFlag w =
      (Exit.fatalErr e, (SN2INFO_request lib tr Sn2infoStatusUrl serial authToken
        { w with debug := w.debug || debugFlag }).2) := by
  unfold lookups
  rcases hc : SN2INFO_request lib tr Sn2infoStatusUrl serial authToken
      { w with debug := w.debug || debugFlag } with ⟨⟨r, _ | e1⟩, w1⟩
  · rw [hc] at h; simp at h
  · rw [hc] at h
    simp only [Option.some.injEq] at h
    subst h
    rfl

/-- The outcome of `lookups` when the coverage decoder returns no error: that of
the product decoder, run in the state the coverage decoder left. -/
theorem lookups_of_coverage_ok (lib : GoLib) (tr : Transport) (serial authToken : String)
    (debugFlag : Bool) (w : World)
    (h : (SN2INFO_request lib tr Sn2infoStatusUrl serial authToken
      { w with debug := w.debug || debugFlag }).1.2 = none) :
    lookups lib tr serial authToken debugFlag w =
      ((match (ProductInfo_request lib tr ProductInfoUrl serial authToken
          (SN2INFO_request lib tr Sn2infoStatusUrl serial authToken
            { w with debug := w.debug || debugFlag }).2).1.2 with
        | some e => Exit.fatalErr e
        | none => Exit.ok),
        (ProductInfo_request lib tr ProductInfoUrl serial authToken
          (SN2INFO_request lib tr Sn2infoStatusUrl serial authToken
            { w with debug := w.debug || debugFlag }).2).2) := by
  unfold lookups
  rcases hc : SN2INFO_request lib tr Sn2infoStatusUrl serial authToken
      { w with debug := w.debug || debugFlag } with ⟨⟨r, _ | e1⟩, w1⟩
  · simp only []
    rcases hp : ProductInfo_request lib tr ProductInfoUrl serial authToken w1 with
      ⟨⟨r2, _ | e2⟩, w2⟩ <;> rfl
  · rw [hc] at h; simp at h

/-- Claim C4: when the transport returns a response, the error that
`SN2INFO_request` and `ProductInfo_request` return is exactly the error of
`json.Unmarshal` on the response body (so it is non-nil if and only if decoding
fails, and it is the syntax error for every body that is not a JSON text); and
when a decoder returns an error, the driver ends fatally with that error in the
state the decoder left, whatever record came with the error. -/
theorem decoder_error_iff_decode_fails (lib : GoLib) (tr : Transport)
    (url serial authToken : String) (w : World) (resp : Response)
    (hurl : lib.newRequestErr (url ++ serial) = none)
    (hresp : tr w.trace (getRequest lib (url ++ serial) authToken) = Except.ok resp) :
    ((SN2INFO_request lib tr url serial authToken w).1 =
        unmarshal Sn2infoSummary.fields resp.body Sn2infoSummary.zero ∧
      (ProductInfo_request lib tr url serial authToken w).1 =
        unmarshal ProductInfoSummary.fields resp.body ProductInfoSummary.zero) ∧
    (((SN2INFO_request lib tr url serial authToken w).1.2 ≠ none ↔
        (unmarshal Sn2infoSummary.fields resp.body Sn2infoSummary.zero).2 ≠ none) ∧
      ((ProductInfo_request lib tr url serial authToken w).1.2 ≠ none ↔
        (unmarshal ProductInfoSummary.fields resp.body ProductInfoSummary.zero).2 ≠ none)) ∧
    (JSON.parse resp.body = none →
      (SN2INFO_request lib tr url serial authToken w).1.2 = some Err.malformed ∧
      (ProductInfo_request lib tr url serial authToken w).1.2 = some Err.malformed) ∧
    (∀ (debugFlag : Bool) (w0 : World) (e : Err),
      ((SN2INFO_request lib tr Sn2infoStatusUrl serial authToken
          { w0 with debug := w0.debug || debugFlag }).1.2 = some e →
        lookups lib tr serial authToken debugFlag w0 =
          (Exit.fatalErr e, (SN2INFO_request lib tr Sn2infoStatusUrl serial authToken
            { w0 with debug := w0.debug || debugFlag }).2)) ∧
      ((SN2INFO_request lib tr Sn2infoStatusUrl serial authToken
          { w0 with debug := w0.debug || debugFlag }).1.2 = none →
        (ProductInfo_request lib tr ProductInfoUrl serial authToken
          (SN2INFO_request lib tr Sn2infoStatusUrl serial authToken
            { w0 with debug := w0.debug || debugFlag }).2).1.2 = some e →
        lookups lib tr serial authToken debugFlag w0 =
          (Exit.fatalErr e, (ProductInfo_request lib tr ProductInfoUrl serial authToken
            (SN2INFO_request lib tr Sn2infoStatusUrl serial authToken
              { w0 with debug := w0.debug || debugFlag }).2).2))) := by
  have h1 : (SN2INFO_request lib tr url serial authToken w).1 =
      unmarshal Sn2infoSummary.fields resp.body Sn2infoSummary.zero := by
    unfold SN2INFO_request
    rw [request_of_response _ _ _ _ _ _ _ _ resp hurl hresp]
  have h2 : (ProductInfo_request lib tr url serial authToken w).1 =
      unmarshal ProductInfoSummary.fields resp.body ProductInfoSummary.zero := by
    unfold ProductInfo_request
    rw [request_of_response _ _ _ _ _ _ _ _ resp hurl hresp]
  refine ⟨⟨h1, h2⟩, ⟨by rw [h1], by rw [h2]⟩, ?_, ?_⟩
  · intro hp
    rw [h1, h2]
    simp [unmarshal, hp]
  · intro debugFlag w0 e
    refine ⟨lookups_of_coverage_error lib tr serial authToken debugFlag w0 e, ?_⟩
    intro hc hp
    rw [lookups_of_coverage_ok lib tr serial authToken debugFlag w0 hc, hp]

/-- The hypotheses of `decoder_error_iff_decode_fails` hold for a transport that
answers the text `not json`; both decoders then return the syntax error. -/
theorem decoder_error_iff_decode_fails_witness :
    (SN2INFO_request plainLib (answer 200 "not json") Sn2infoStatusUrl "SN1" "tok"
        World.init).1.2 = some Err.malformed ∧
    (ProductInfo_request plainLib (answer 200 "not json") Sn2infoStatusUrl "SN1" "tok"
        World.init).1.2 = some Err.malformed :=
  (decoder_error_iff_decode_fails plainLib (answer 200 "not json") Sn2infoStatusUrl "SN1" "tok"
    World.init { status := 200, body := "not json", readErr := none } rfl rfl).2.2.1 rfl

/-! ## The form body of the token request (C7) -/

/-- Claim C7 fails on the code: `auth` concatenates its inputs into the form body
without escaping them.  For the client secret `p&q` the request still declares
`Content-Type: application/x-www-form-urlencoded`, but decoding its body yields
four pairs, `client_secret = p` and `q =` among them, and not the three pairs
with `client_secret = p&q`. -/
theorem auth_body_not_escaped :
    (auth plainLib (answer 200 "{}") SsoUrl "id" "p&q" "client_credentials" World.init).2.trace =
      [{ method := "POST", url := SsoUrl,
         header := [("Content-Type", "application/x-www-form-urlencoded")],
         body := some "client_id=id&client_secret=p&q&grant_type=client_credentials" }] ∧
    parseQuery (utf8Bytes (authParams "id" "p&q" "client_credentials")) =
      ([(utf8Bytes "client_id", utf8Bytes "id"), (utf8Bytes "client_secret", utf8Bytes "p"),
        (utf8Bytes "q", utf8Bytes ""), (utf8Bytes "grant_type", utf8Bytes "client_credentials")],
        false) ∧
    parseQuery (utf8Bytes (authParams "id" "p&q" "client_credentials")) ≠
      ([(utf8Bytes "client_id", utf8Bytes "id"), (utf8Bytes "client_secret", utf8Bytes "p&q"),
        (utf8Bytes "grant_type", utf8Bytes "client_credentials")], false) := by
  decide

/-! ## The token record of a successful `auth` (C3) -/

/-- What storing an object member does to `TokenType`: nothing, unless the key
is `token_type` up to case, in which case the member is stored as a string. -/
theorem OAuth.store_tokenType (k : String) (f : FieldSpec OAuth)
    (hf : findField OAuth.fields k = some f) (v : JSON) (r : OAuth) :
    (f.store v r).1.TokenType = r.TokenType ∨
    (foldName k = foldName "token_type" ∧
      (f.store v r).1.TokenType = (decodeString v r.TokenType).1) := by
  unfold findField OAuth.fields at hf
  simp only [List.find?, field] at hf
  by_cases h1 : "access_token" = k
  · simp [h1] at hf
    subst hf
    exact Or.inl rfl
  · by_cases h2 : "token_type" = k
    · simp [h1, h2] at hf
      subst hf
      exact Or.inr ⟨by rw [h2], rfl⟩
    · by_cases h3 : "expires_in" = k
      · simp [h1, h2, h3] at hf
        subst hf
        exact Or.inl rfl
      · simp only [h1, h2, h3, decide_False] at hf
        by_cases g1 : foldName "access_token" = foldName k
        · simp [g1] at hf
          subst hf
          exact Or.inl rfl
        · by_cases g2 : foldName "token_type" = foldName k
          · simp [g1, g2] at hf
            subst hf
            exact Or.inr ⟨g2.symm, rfl⟩
          · by_cases g3 : foldName "expires_in" = foldName k
            · simp [g1, g2, g3] at hf
              subst hf
              exact Or.inl rfl
            · simp [g1, g2, g3] at hf

/-- A string stored by `decodeString` is either the old one or the JSON string. -/
theorem decodeString_cases (v : JSON) (old : String) :
    (decodeString v old).1 = old ∨ v = JSON.str (decodeString v old).1 := by
  cases v <;> simp [decodeString]

/-- After an object is stored into an `OAuth` record, `TokenType` is what it was
before, or the string value of a member whose key is `token_type` up to case. -/
theorem OAuth.tokenType_of_decodeObject (kvs : List (String × JSON)) (r : OAuth) :
    (decodeObject OAuth.fields kvs r).1.TokenType = r.TokenType ∨
    ∃ k, (k, JSON.str (decodeObject OAuth.fields kvs r).1.TokenType) ∈ kvs ∧
      foldName k = foldName "token_type" := by
  induction kvs generalizing r with
  | nil => exact Or.inl rfl
  | cons kv rest ih =>
    obtain ⟨k, v⟩ := kv
    unfold decodeObject
    cases hf : findField OAuth.fields k with
    | none =>
      simp only []
      rcases ih r with h | ⟨k1, hk1, hfold⟩
      · exact Or.inl h
      · exact Or.inr ⟨k1, List.mem_cons_of_mem _ hk1, hfold⟩
    | some f =>
      simp only []
      rcases ih (f.store v r).1 with h | ⟨k1, hk1, hfold⟩
      · rcases OAuth.store_tokenType k f hf v r with h1 | ⟨hk, h1⟩
        · exact Or.inl (h.trans h1)
        · rcases decodeString_cases v r.TokenType with h2 | h2
          · exact Or.inl (h.trans (h1.trans h2))
          · refine Or.inr ⟨k, ?_, hk⟩
            rw [h, h1, ← h2]
            exact List.mem_cons_self _ _
      · exact Or.inr ⟨k1, List.mem_cons_of_mem _ hk1, hfold⟩

/-- Claim C3 as stated fails: for the response body `{}` the call of `auth`
succeeds (nil error) and the returned record has an empty `TokenType`. -/
theorem auth_success_empty_token_type :
    (auth plainLib (answer 200 "{}") SsoUrl "id" "secret" "client_credentials" World.init).1.2 =
      none ∧
    (auth plainLib (answer 200 "{}") SsoUrl "id" "secret" "client_credentials"
      World.init).1.1.TokenType = "" := by
  decide

/-- Claim C3, amended: for every call of `auth` that succeeds (nil error), the
transport returned a response whose body is a JSON text, and the returned record
is what `json.Unmarshal` stores from that text into a zero record; its
`TokenType` is the string value of a member of the body whose key is
`token_type` (up to case) whenever it is non-empty, and it is empty when the
body has no such member. -/
theorem auth_success_record (lib : GoLib) (tr : Transport)
    (url clientId clientSecret grantType : String) (w : World)
    (h : (auth lib tr url clientId clientSecret grantType w).1.2 = none) :
    ∃ resp j,
      tr w.trace (authRequest lib url clientId clientSecret grantType) = Except.ok resp ∧
      JSON.parse resp.body = some j ∧
      (auth lib tr url clientId clientSecret grantType w).1 =
        decodeStruct OAuth.fields j OAuth.zero ∧
      ((auth lib tr url clientId clientSecret grantType w).1.1.TokenType ≠ "" →
        ∃ kvs k, j = JSON.obj kvs ∧
          (k, JSON.str (auth lib tr url clientId clientSecret grantType w).1.1.TokenType) ∈ kvs ∧
          foldName k = foldName "token_type") := by
  unfold auth at h ⊢
  cases hu : lib.newRequestErr url with
  | some msg => simp [hu] at h
  | none =>
    simp only [hu] at h ⊢
    cases ht : tr w.trace (authRequest lib url clientId clientSecret grantType) with
    | error msg => simp [ht] at h
    | ok resp =>
      simp only [ht] at h ⊢
      unfold unmarshal at h ⊢
      cases hp : JSON.parse resp.body with
      | none => simp [hp] at h
      | some j =>
        simp only [hp] at h ⊢
        refine ⟨resp, j, rfl, hp, rfl, ?_⟩
        intro hne
        cases j with
        | obj kvs =>
          rcases OAuth.tokenType_of_decodeObject kvs OAuth.zero with h1 | ⟨k, hk, hfold⟩
          · exact absurd h1 hne
          · exact ⟨kvs, k, rfl, hk, hfold⟩
        | null => exact absurd rfl hne
        | bool b => exact absurd rfl hne
        | int i => exact absurd rfl hne
        | real l => exact absurd rfl hne
        | str s => exact absurd rfl hne
        | arr xs => exact absurd rfl hne

/-- The hypothesis of `auth_success_record` holds for a transport that answers
with a token body, and its conclusion applies. -/
theorem auth_success_record_witness :
    (auth plainLib (answer 200 tokenBody) SsoUrl
      "id" "secret" "client_credentials" World.init).1.2 = none ∧
    ∃ resp j,
      answer 200 tokenBody World.init.trace
        (authRequest plainLib SsoUrl "id" "secret" "client_credentials") = Except.ok resp ∧
      JSON.parse resp.body = some j ∧
      (auth plainLib (answer 200 tokenBody) SsoUrl
        "id" "secret" "client_credentials" World.init).1 =
        decodeStruct OAuth.fields j OAuth.zero ∧
      ((auth plainLib (answer 200 tokenBody) SsoUrl
        "id" "secret" "client_credentials" World.init).1.1.TokenType ≠ "" →
        ∃ kvs k, j = JSON.obj kvs ∧
          (k, JSON.str (auth plainLib
            (answer 200 tokenBody) SsoUrl
            "id" "secret" "client_credentials" World.init).1.1.TokenType) ∈ kvs ∧
          foldName k = foldName "token_type") :=
  ⟨by decide,
    auth_success_record plainLib (answer 200 tokenBody)
      SsoUrl "id" "secret" "client_credentials" World.init (by decide)⟩

/-! ## The order of the requests (C8) -/

/-- The requests made while the token is resolved are not GETs. -/
theorem resolveToken_no_get (lib : GoLib) (tr : Transport) (getenv : String → String) :
    (resolveToken lib tr getenv).2.trace.filter (fun r => decide (r.method = "GET")) = [] := by
  rw [resolveToken_trace]
  split_ifs
  · rfl
  · rfl

/-- Claim C8: in every run of `main` with a non-empty serial number (and a
library whose `http.NewRequest` accepts the product URL whenever it accepts the
coverage URL for the same serial number): if the authenticator fails the run is
fatal with its error and no GET is made; once the token is resolved, the GETs of
the run are, in this order, the coverage request (when its URL is accepted) and
then the product request, the latter present exactly when the coverage decoder
returned no error; an error of the coverage decoder ends the run fatally in the
state that decoder left, an error of the product decoder ends it fatally in the
state that decoder left, and otherwise the run returns normally. -/
theorem main_request_order (lib : GoLib) (tr : Transport) (getenv : String → String)
    (serial : String) (debugFlag : Bool) (hserial : serial ≠ "")
    (hurl : lib.newRequestErr (Sn2infoStatusUrl ++ serial) = none →
      lib.newRequestErr (ProductInfoUrl ++ serial) = none) :
    match resolveToken lib tr getenv with
    | (Except.error e, w) =>
      main lib tr getenv serial debugFlag = (Exit.fatalErr e, w) ∧
      (main lib tr getenv serial debugFlag).2.trace.filter
        (fun r => decide (r.method = "GET")) = []
    | (Except.ok authToken, w) =>
      (main lib tr getenv serial debugFlag).2.trace.filter
          (fun r => decide (r.method = "GET")) =
        (if lib.newRequestErr (Sn2infoStatusUrl ++ serial) = none then
          [getRequest lib (Sn2infoStatusUrl ++ serial) authToken] else []) ++
        (if (SN2INFO_request lib tr Sn2infoStatusUrl serial authToken
            { w with debug := w.debug || debugFlag }).1.2 = none then
          [getRequest lib (ProductInfoUrl ++ serial) authToken] else []) ∧
      main lib tr getenv serial debugFlag =
        (match (SN2INFO_request lib tr Sn2infoStatusUrl serial authToken
            { w with debug := w.debug || debugFlag }).1.2 with
        | some e =>
          (Exit.fatalErr e, (SN2INFO_request lib tr Sn2infoStatusUrl serial authToken
            { w with debug := w.debug || debugFlag }).2)
        | none =>
          (match (ProductInfo_request lib tr ProductInfoUrl serial authToken
              (SN2INFO_request lib tr Sn2infoStatusUrl serial authToken
                { w with debug := w.debug || debugFlag }).2).1.2 with
          | some e => Exit.fatalErr e
          | none => Exit.ok,
          (ProductInfo_request lib tr ProductInfoUrl serial authToken
            (SN2INFO_request lib tr Sn2infoStatusUrl serial authToken
              { w with debug := w.debug || debugFlag }).2).2)) := by
  have hng := resolveToken_no_get lib tr getenv
  unfold main
  rcases hres : resolveToken lib tr getenv with ⟨e | authToken, w⟩
  · rw [hres] at hng
    exact ⟨rfl, hng⟩
  · rw [hres] at hng
    simp only [] at hng ⊢
    have hafter : afterToken lib tr serial authToken debugFlag w =
        lookups lib tr serial authToken debugFlag w := by
      simp [afterToken, hserial]
    rw [hafter]
    constructor
    · rw [lookups_trace, List.filter_append, List.filter_append, hng, List.nil_append]
      have hcond : ((SN2INFO_request lib tr Sn2infoStatusUrl serial authToken
            { w with debug := w.debug || debugFlag }).1.2 = none ∧
          lib.newRequestErr (ProductInfoUrl ++ serial) = none) ↔
          (SN2INFO_request lib tr Sn2infoStatusUrl serial authToken
            { w with debug := w.debug || debugFlag }).1.2 = none := by
        constructor
        · exact fun h => h.1
        · intro h
          refine ⟨h, hurl ?_⟩
          by_contra hbad
          exact request_error_of_badURL Sn2infoSummary.fields Sn2infoSummary.zero lib tr
            Sn2infoStatusUrl serial authToken { w with debug := w.debug || debugFlag } hbad h
      simp only [hcond]
      congr 1
      · split_ifs
        · rfl
        · rfl
      · split_ifs
        · rfl
        · rfl
    · cases hc : (SN2INFO_request lib tr Sn2infoStatusUrl serial authToken
          { w with debug := w.debug || debugFlag }).1.2 with
      | some e => exact lookups_of_coverage_error lib tr serial authToken debugFlag w e hc
      | none => exact lookups_of_coverage_ok lib tr serial authToken debugFlag w hc

/-- The hypotheses of `main_request_order` hold for the serial number `SN1` and
a library that accepts every URL; over a transport that answers `{}` the run
makes the coverage GET and then the product GET and returns normally. -/
theorem main_request_order_witness :
    (main plainLib (answer 200 "{}") (tokenEnv "tok") "SN1" false).2.trace.filter
        (fun r => decide (r.method = "GET")) =
      [getRequest plainLib (Sn2infoStatusUrl ++ "SN1") "tok",
        getRequest plainLib (ProductInfoUrl ++ "SN1") "tok"] ∧
    (main plainLib (answer 200 "{}") (tokenEnv "tok") "SN1" false).1 = Exit.ok := by
  have h := main_request_order plainLib (answer 200 "{}") (tokenEnv "tok") "SN1" false
    (by decide) (fun _ => rfl)
  have hres : resolveToken plainLib (answer 200 "{}") (tokenEnv "tok") =
      (Except.ok "tok", World.init) := rfl
  rw [hres] at h
  refine ⟨h.1.trans (by decide), ?_⟩
  rw [h.2]
  decide

/-! ## Decoding a well-formed coverage body (C5) -/

theorem findField_some {α : Type} (fields : List (FieldSpec α)) (k : String) (f : FieldSpec α)
    (h : findField fields k = some f) :
    f ∈ fields ∧ foldName f.name = foldName k := by
  unfold findField at h
  cases h1 : fields.find? (fun f => decide (f.name = k)) with
  | some g =>
    rw [h1] at h
    simp only [Option.some.injEq] at h
    subst h
    have hp := List.find?_some h1
    simp only [decide_eq_true_eq] at hp
    exact ⟨List.mem_of_find?_eq_some h1, by rw [hp]⟩
  | none =>
    rw [h1] at h
    simp only [] at h
    have hp := List.find?_some h
    simp only [decide_eq_true_eq] at hp
    exact ⟨List.mem_of_find?_eq_some h, hp⟩

theorem findField_ne_none {α : Type} (fields : List (FieldSpec α)) (f : FieldSpec α)
    (hf : f ∈ fields) : findField fields f.name ≠ none := by
  unfold findField
  cases h1 : fields.find? (fun g => decide (g.name = f.name)) with
  | some g => simp
  | none =>
    rw [List.find?_eq_none] at h1
    exact absurd (by simp) (h1 f hf)

theorem cleanKeys_nodup (tags : List String) (m : List (String × JSON))
    (h : cleanKeys tags m = true) : (m.map Prod.fst).Nodup := by
  unfold cleanKeys at h
  simp only [Bool.and_eq_true, decide_eq_true_eq] at h
  exact h.1

theorem cleanKeys_exact (tags : List String) (m : List (String × JSON))
    (h : cleanKeys tags m = true) (k : String) (hk : k ∈ m.map Prod.fst) (t : String)
    (ht : t ∈ tags) (hfold : foldName t = foldName k) : t = k := by
  unfold cleanKeys at h
  simp only [Bool.and_eq_true, decide_eq_true_eq, List.all_eq_true, Bool.or_eq_true,
    bne_iff_ne, ne_eq, beq_iff_eq] at h
  rcases h.2 k hk t ht with h1 | h1
  · exact absurd hfold h1
  · exact h1

theorem cleanKeys_tail (tags : List String) (kv : String × JSON) (m : List (String × JSON))
    (h : cleanKeys tags (kv :: m) = true) : cleanKeys tags m = true := by
  unfold cleanKeys at h ⊢
  simp only [List.map_cons, List.nodup_cons, Bool.and_eq_true, decide_eq_true_eq,
    List.all_cons] at h ⊢
  exact ⟨h.1.2, h.2.2⟩

theorem lookup_of_mem (m : List (String × JSON)) (hn : (m.map Prod.fst).Nodup) (k : String)
    (v : JSON) (h : (k, v) ∈ m) : m.lookup k = some v := by
  induction m with
  | nil => simp at h
  | cons kv rest ih =>
    obtain ⟨k1, v1⟩ := kv
    simp only [List.map_cons, List.nodup_cons] at hn
    rcases List.mem_cons.mp h with h1 | h1
    · simp only [Prod.mk.injEq] at h1
      rw [h1.1, h1.2]
      simp [List.lookup]
    · have hne : k ≠ k1 := by
        intro heq
        apply hn.1
        rw [← heq]
        exact List.mem_map.mpr ⟨(k, v), h1, rfl⟩
      have hb : (k == k1) = false := by simpa using hne
      simp only [List.lookup, hb]
      exact ih hn.2 h1

theorem lookup_eq_none_of_not_mem (m : List (String × JSON)) (k : String)
    (h : k ∉ m.map Prod.fst) : m.lookup k = none := by
  induction m with
  | nil => rfl
  | cons kv rest ih =>
    obtain ⟨k1, v1⟩ := kv
    simp only [List.map_cons, List.mem_cons, not_or] at h
    have hb : (k == k1) = false := by simpa using h.1
    simp only [List.lookup, hb]
    exact ih h.2

/-- One field of the result of storing an object with clean keys into a
struct: the member named by the field's tag, stored into the field's old value;
the old value when there is no such member. -/
theorem decodeObject_get {α β : Type} (fields : List (FieldSpec α)) (name : String)
    (get : α → β) (dec : Decoder β)
    (hmem : ∃ f ∈ fields, f.name = name)
    (hself : ∀ f ∈ fields, f.name = name → ∀ v r, get (f.store v r).1 = (dec v (get r)).1)
    (hother : ∀ f ∈ fields, f.name ≠ name → ∀ v r, get (f.store v r).1 = get r)
    (m : List (String × JSON)) (hclean : cleanKeys (tagsOf fields) m = true) (r : α) :
    get (decodeObject fields m r).1 = storeMember dec (get r) (m.lookup name) := by
  induction m generalizing r with
  | nil => rfl
  | cons kv rest ih =>
    obtain ⟨k, v⟩ := kv
    have hn := cleanKeys_nodup _ _ hclean
    simp only [List.map_cons, List.nodup_cons] at hn
    have hrest := cleanKeys_tail _ _ _ hclean
    unfold decodeObject
    cases hf : findField fields k with
    | none =>
      simp only []
      have hne : name ≠ k := by
        intro heq
        obtain ⟨f, hfm, hfn⟩ := hmem
        apply findField_ne_none fields f hfm
        rw [hfn, heq]
        exact hf
      have hb : (name == k) = false := by simpa using hne
      rw [ih hrest r]
      simp only [List.lookup, hb]
    | some f =>
      simp only []
      obtain ⟨hfm, hfold⟩ := findField_some fields k f hf
      have hfk : f.name = k :=
        cleanKeys_exact _ _ hclean k (by simp) f.name
          (List.mem_map.mpr ⟨f, hfm, rfl⟩) hfold
      rw [ih hrest (f.store v r).1]
      by_cases hkn : name = k
      · have hb : (name == k) = true := by simpa using hkn
        have hnone : rest.lookup name = none := by
          apply lookup_eq_none_of_not_mem
          rw [hkn]
          exact hn.1
        simp only [List.lookup, hb, hnone, storeMember]
        exact hself f hfm (hfk.trans hkn.symm) v r
      · have hb : (name == k) = false := by simpa using hkn
        have hfn : f.name ≠ name := fun h => hkn (h.symm.trans hfk)
        simp only [List.lookup, hb]
        rw [hother f hfm hfn v r]

/-- Storing an object reports no error when storing each of its members into
the field its key addresses reports none. -/
theorem decodeObject_noErr {α : Type} (fields : List (FieldSpec α)) (m : List (String × JSON))
    (h : ∀ k v f, (k, v) ∈ m → findField fields k = some f → ∀ r, (f.store v r).2 = none)
    (r : α) : (decodeObject fields m r).2 = none := by
  induction m generalizing r with
  | nil => rfl
  | cons kv rest ih =>
    obtain ⟨k, v⟩ := kv
    have hrest : ∀ k v f, (k, v) ∈ rest → findField fields k = some f →
        ∀ r, (f.store v r).2 = none :=
      fun k1 v1 f hm hf => h k1 v1 f (List.mem_cons_of_mem _ hm) hf
    unfold decodeObject
    cases hf : findField fields k with
    | none => exact ih hrest r
    | some f =>
      simp only []
      rw [h k v f (List.mem_cons_self _ _) hf r, ih hrest]
      rfl

theorem string_value (o : Option JSON) (_h : okString o = true) :
    storeMember decodeString "" o = stringOf o := by
  rcases o with _ | v
  · rfl
  · cases v <;> rfl

theorem string_noErr (v : JSON) (old : String) (h : okString (some v) = true) :
    (decodeString v old).2 = none := by
  cases v <;> first | rfl | exact absurd h (by simp [okString])

theorem int_value (o : Option JSON) (h : okInt o = true) :
    storeMember decodeInt 0 o = intOf o := by
  rcases o with _ | v
  · rfl
  · cases v with
    | int i =>
      simp only [okInt, decide_eq_true_eq] at h
      simp [storeMember, decodeInt, intOf, h]
    | null => simp [okInt] at h
    | bool b => simp [okInt] at h
    | real l => simp [okInt] at h
    | str s => simp [okInt] at h
    | arr xs => simp [okInt] at h
    | obj kvs => simp [okInt] at h

theorem int_noErr (v : JSON) (old : Int) (h : okInt (some v) = true) :
    (decodeInt v old).2 = none := by
  cases v with
  | int i =>
    simp only [okInt, decide_eq_true_eq] at h
    simp [decodeInt, h]
  | null => simp [okInt] at h
  | bool b => simp [okInt] at h
  | real l => simp [okInt] at h
  | str s => simp [okInt] at h
  | arr xs => simp [okInt] at h
  | obj kvs => simp [okInt] at h

theorem struct_value {α : Type} (fields : List (FieldSpec α)) (zero : α)
    (read : List (String × JSON) → α) (p : List (String × JSON) → Bool)
    (hp : ∀ m, p m = true → (decodeObject fields m zero).1 = read m)
    (o : Option JSON) (h : okStruct p o = true) :
    storeMember (decodeStruct fields) zero o = structOf read zero o := by
  rcases o with _ | v
  · rfl
  · cases v with
    | obj kvs => exact hp kvs h
    | null => simp [okStruct] at h
    | bool b => simp [okStruct] at h
    | int i => simp [okStruct] at h
    | real l => simp [okStruct] at h
    | str s => simp [okStruct] at h
    | arr xs => simp [okStruct] at h

theorem struct_noErr {α : Type} (fields : List (FieldSpec α))
    (p : List (String × JSON) → Bool)
    (hp : ∀ m, p m = true → ∀ r, (decodeObject fields m r).2 = none)
    (v : JSON) (old : α) (h : okStruct p (some v) = true) :
    (decodeStruct fields v old).2 = none := by
  cases v with
  | obj kvs => exact hp kvs h old
  | null => simp [okStruct] at h
  | bool b => simp [okStruct] at h
  | int i => simp [okStruct] at h
  | real l => simp [okStruct] at h
  | str s => simp [okStruct] at h
  | arr xs => simp [okStruct] at h

theorem elements_value {α : Type} (fields : List (FieldSpec α)) (zero : α)
    (read : List (String × JSON) → α) (p : List (String × JSON) → Bool)
    (hp : ∀ m, p m = true → (decodeObject fields m zero).1 = read m)
    (xs : List JSON) (h : xs.all (okElement p) = true) :
    (decodeElements (decodeStruct fields) zero xs []).1 = xs.map (elementOf read zero) := by
  induction xs with
  | nil => rfl
  | cons x rest ih =>
    simp only [List.all_cons, Bool.and_eq_true] at h
    unfold decodeElements
    simp only [List.map_cons]
    rw [ih h.2]
    cases x with
    | obj kvs => rw [show (decodeStruct fields (JSON.obj kvs) zero).1 = read kvs from hp kvs h.1]; rfl
    | null => simp [okElement] at h
    | bool b => simp [okElement] at h
    | int i => simp [okElement] at h
    | real l => simp [okElement] at h
    | str s => simp [okElement] at h
    | arr ys => simp [okElement] at h

theorem elements_noErr {α : Type} (fields : List (FieldSpec α)) (zero : α)
    (p : List (String × JSON) → Bool)
    (hp : ∀ m, p m = true → ∀ r, (decodeObject fields m r).2 = none)
    (xs : List JSON) (h : xs.all (okElement p) = true) (old : List α) :
    (decodeElements (decodeStruct fields) zero xs old).2 = none := by
  induction xs generalizing old with
  | nil => cases old <;> rfl
  | cons x rest ih =>
    simp only [List.all_cons, Bool.and_eq_true] at h
    have hx : ∀ r, (decodeStruct fields x r).2 = none := by
      intro r
      cases x with
      | obj kvs => exact hp kvs h.1 r
      | null => simp [okElement] at h
      | bool b => simp [okElement] at h
      | int i => simp [okElement] at h
      | real l => simp [okElement] at h
      | str s => simp [okElement] at h
      | arr ys => simp [okElement] at h
    cases old with
    | nil =>
      unfold decodeElements
      simp only []
      rw [ih h.2 [], hx zero]
      rfl
    | cons o rest1 =>
      unfold decodeElements
      simp only []
      rw [ih h.2 rest1, hx o]
      rfl

theorem list_value {α : Type} (fields : List (FieldSpec α)) (zero : α)
    (read : List (String × JSON) → α) (p : List (String × JSON) → Bool)
    (hp : ∀ m, p m = true → (decodeObject fields m zero).1 = read m)
    (o : Option JSON) (h : okList p o = true) :
    storeMember (decodeSlice (decodeStruct fields) zero) [] o = listOf read zero o := by
  rcases o with _ | v
  · rfl
  · cases v with
    | arr xs => exact elements_value fields zero read p hp xs h
    | null => simp [okList] at h
    | bool b => simp [okList] at h
    | int i => simp [okList] at h
    | real l => simp [okList] at h
    | str s => simp [okList] at h
    | obj kvs => simp [okList] at h

theorem list_noErr {α : Type} (fields : List (FieldSpec α)) (zero : α)
    (p : List (String × JSON) → Bool)
    (hp : ∀ m, p m = true → ∀ r, (decodeObject fields m r).2 = none)
    (v : JSON) (old : List α) (h : okList p (some v) = true) :
    (decodeSlice (decodeStruct fields) zero v old).2 = none := by
  cases v with
  | arr xs => exact elements_noErr fields zero p hp xs h old
  | null => simp [okList] at h
  | bool b => simp [okList] at h
  | int i => simp [okList] at h
  | real l => simp [okList] at h
  | str s => simp [okList] at h
  | obj kvs => simp [okList] at h

/-- Storing a well-formed `BasePidEntry` object reports no error. -/
theorem BasePidEntry_noErr_of_conforms (m : List (String × JSON)) (h : BasePidEntry.conforms m = true)
    (r : BasePidEntry) : (decodeObject BasePidEntry.fields m r).2 = none := by
  unfold BasePidEntry.conforms at h
  simp only [Bool.and_eq_true, and_assoc] at h
  obtain ⟨hclean, h0⟩ := h
  apply decodeObject_noErr
  intro k v f hkv hf r
  obtain ⟨hfm, hfold⟩ := findField_some _ k f hf
  have hfk : f.name = k :=
    cleanKeys_exact _ _ hclean k (List.mem_map.mpr ⟨(k, v), hkv, rfl⟩) f.name
      (List.mem_map.mpr ⟨f, hfm, rfl⟩) hfold
  have hl := lookup_of_mem m (cleanKeys_nodup _ _ hclean) k v hkv
  simp only [BasePidEntry.fields, List.mem_cons, List.mem_singleton, List.not_mem_nil, or_false] at hfm
  subst hfm
  · have hk : "base_pid" = k := hfk
    subst hk
    have hh := h0
    rw [hl] at hh
    exact string_noErr v _ hh

/-- Storing a well-formed `BasePidEntry` object into the zero record gives the record read key by key. -/
theorem BasePidEntry_decode_of_conforms (m : List (String × JSON)) (h : BasePidEntry.conforms m = true) :
    (decodeObject BasePidEntry.fields m BasePidEntry.zero).1 = BasePidEntry.ofMembers m := by
  unfold BasePidEntry.conforms at h
  simp only [Bool.and_eq_true, and_assoc] at h
  obtain ⟨hclean, h0⟩ := h
  have hmemAll : ∀ f ∈ BasePidEntry.fields, f ∈ BasePidEntry.fields := fun _ hf => hf
  apply BasePidEntry.ext
  · have hh := h0
    have hg := decodeObject_get BasePidEntry.fields "base_pid" (fun r => r.BasePid) decodeString
      ⟨field "base_pid" (fun r => r.BasePid) (fun r x => { r with BasePid := x }) decodeString,
        by simp [BasePidEntry.fields], rfl⟩
      (by
        intro f hf hn v r
        simp only [BasePidEntry.fields, List.mem_cons, List.mem_singleton, List.not_mem_nil, or_false] at hf
        subst hf
        rfl)
      (by
        intro f hf hn v r
        simp only [BasePidEntry.fields, List.mem_cons, List.mem_singleton, List.not_mem_nil, or_false] at hf
        subst hf
        exact absurd rfl hn)
      m hclean BasePidEntry.zero
    exact hg.trans (string_value _ hh)

/-- Storing a well-formed `OrderablePidEntry` object reports no error. -/
theorem OrderablePidEntry_noErr_of_conforms (m : List (String × JSON)) (h : OrderablePidEntry.conforms m = true)
    (r : OrderablePidEntry) : (decodeObject OrderablePidEntry.fields m r).2 = none := by
  unfold OrderablePidEntry.conforms at h
  simp only [Bool.and_eq_true, and_assoc] at h
  obtain ⟨hclean, h0, h1, h2, h3, h4⟩ := h
  apply decodeObject_noErr
  intro k v f hkv hf r
  obtain ⟨hfm, hfold⟩ := findField_some _ k f hf
  have hfk : f.name = k :=
    cleanKeys_exact _ _ hclean k (List.mem_map.mpr ⟨(k, v), hkv, rfl⟩) f.name
      (List.mem_map.mpr ⟨f, hfm, rfl⟩) hfold
  have hl := lookup_of_mem m (cleanKeys_nodup _ _ hclean) k v hkv
  simp only [OrderablePidEntry.fields, List.mem_cons, List.mem_singleton, List.not_mem_nil, or_false] at hfm
  rcases hfm with rfl | rfl | rfl | rfl | rfl
  · have hk : "item_description" = k := hfk
    subst hk
    have hh := h0
    rw [hl] at hh
    exact string_noErr v _ hh
  · have hk : "item_position" = k := hfk
    subst hk
    have hh := h1
    rw [hl] at hh
    exact string_noErr v _ hh
  · have hk : "item_type" = k := hfk
    subst hk
    have hh := h2
    rw [hl] at hh
    exact string_noErr v _ hh
  · have hk : "orderable_pid" = k := hfk
    subst hk
    have hh := h3
    rw [hl] at hh
    exact string_noErr v _ hh
  · have hk : "pillar_code" = k := hfk
    subst hk
    have hh := h4
    rw [hl] at hh
    exact string_noErr v _ hh

/-- Storing a well-formed `OrderablePidEntry` object into the zero record gives the record read key by key. -/
theorem OrderablePidEntry_decode_of_conforms (m : List (String × JSON)) (h : OrderablePidEntry.conforms m = true) :
    (decodeObject OrderablePidEntry.fields m OrderablePidEntry.zero).1 = OrderablePidEntry.ofMembers m := by
  unfold OrderablePidEntry.conforms at h
  simp only [Bool.and_eq_true, and_assoc] at h
  obtain ⟨hclean, h0, h1, h2, h3, h4⟩ := h
  have hmemAll : ∀ f ∈ OrderablePidEntry.fields, f ∈ OrderablePidEntry.fields := fun _ hf => hf
  apply OrderablePidEntry.ext
  · have hh := h0
    have hg := decodeObject_get OrderablePidEntry.fields "item_description" (fun r => r.ItemDescription) decodeString
      ⟨field "item_description" (fun r => r.ItemDescription) (fun r x => { r with ItemDescription := x }) decodeString,
        by simp [OrderablePidEntry.fields], rfl⟩
      (by
        intro f hf hn v r
        simp only [OrderablePidEntry.fields, List.mem_cons, List.mem_singleton, List.not_mem_nil, or_false] at hf
        rcases hf with rfl | rfl | rfl | rfl | rfl
        all_goals first | rfl | exact absurd hn (by decide))
      (by
        intro f hf hn v r
        simp only [OrderablePidEntry.fields, List.mem_cons, List.mem_singleton, List.not_mem_nil, or_false] at hf
        rcases hf with rfl | rfl | rfl | rfl | rfl
        all_goals first | rfl | exact absurd rfl hn)
      m hclean OrderablePidEntry.zero
    exact hg.trans (string_value _ hh)
  · have hh := h1
    have hg := decodeObject_get OrderablePidEntry.fields "item_position" (fun r => r.ItemPosition) decodeString
      ⟨field "item_position" (fun r => r.ItemPosition) (fun r x => { r with ItemPosition := x }) decodeString,
        by simp [OrderablePidEntry.fields], rfl⟩
      (by
        intro f hf hn v r
        simp only [OrderablePidEntry.fields, List.mem_cons, List.mem_singleton, List.not_mem_nil, or_false] at hf
        rcases hf with rfl | rfl | rfl | rfl | rfl
        all_goals first | rfl | exact absurd hn (by decide))
      (by
        intro f hf hn v r
        simp only [OrderablePidEntry.fields, List.mem_cons, List.mem_singleton, List.not_mem_nil, or_false] at hf
        rcases hf with rfl | rfl | rfl | rfl | rfl
        all_goals first | rfl | exact absurd rfl hn)
      m hclean OrderablePidEntry.zero
    exact hg.trans (string_value _ hh)
  · have hh := h2
    have hg := decodeObject_get OrderablePidEntry.fields "item_type" (fun r => r.ItemType) decodeString
      ⟨field "item_type" (fun r => r.ItemType) (fun r x => { r with ItemType := x }) decodeString,
        by simp [OrderablePidEntry.fields], rfl⟩
      (by
        intro f hf hn v r
        simp only [OrderablePidEntry.fields, List.mem_cons, List.mem_singleton, List.not_mem_nil, or_false] at hf
        rcases hf with rfl | rfl | rfl | rfl | rfl
        all_goals first | rfl | exact absurd hn (by decide))
      (by
        intro f hf hn v r
        simp only [OrderablePidEntry.fields, List.mem_cons, List.mem_singleton, List.not_mem_nil, or_false] at hf
        rcases hf with rfl | rfl | rfl | rfl | rfl
        all_goals first | rfl | exact absurd rfl hn)
      m hclean OrderablePidEntry.zero
    exact hg.trans (string_value _ hh)
  · have hh := h3
    have hg := decodeObject_get OrderablePidEntry.fields "orderable_pid" (fun r => r.OrderablePid) decodeString
      ⟨field "orderable_pid" (fun r => r.OrderablePid) (fun r x => { r with OrderablePid := x }) decodeString,
        by simp [OrderablePidEntry.fields], rfl⟩
      (by
        intro f hf hn v r
        simp only [OrderablePidEntry.fields, List.mem_cons, List.mem_singleton, List.not_mem_nil, or_false] at hf
        rcases hf with rfl | rfl | rfl | rfl | rfl
        all_goals first | rfl | exact absurd hn (by decide))
      (by
        intro f hf hn v r
        simp only [OrderablePidEntry.fields, List.mem_cons, List.mem_singleton, List.not_mem_nil, or_false] at hf
        rcases hf with rfl | rfl | rfl | rfl | rfl
        all_goals first | rfl | exact absurd rfl hn)
      m hclean OrderablePidEntry.zero
    exact hg.trans (string_value _ hh)
  · have hh := h4
    have hg := decodeObject_get OrderablePidEntry.fields "pillar_code" (fun r => r.PillarCode) decodeString
      ⟨field "pillar_code" (fun r => r.PillarCode) (fun r x => { r with PillarCode := x }) decodeString,
        by simp [OrderablePidEntry.fields], rfl⟩
      (by
        intro f hf hn v r
        simp only [OrderablePidEntry.fields, List.mem_cons, List.mem_singleton, List.not_mem_nil, or_false] at hf
        rcases hf with rfl | rfl | rfl | rfl | rfl
        all_goals first | rfl | exact absurd hn (by decide))
      (by
        intro f hf hn v r
        simp only [OrderablePidEntry.fields, List.mem_cons, List.mem_singleton, List.not_mem_nil, or_false] at hf
        rcases hf with rfl | rfl | rfl | rfl | rfl
        all_goals first | rfl | exact absurd rfl hn)
      m hclean OrderablePidEntry.zero
    exact hg.trans (string_value _ hh)

/-- Storing a well-formed `PaginationResponseRecord` object reports no error. -/
theorem PaginationResponseRecord_noErr_of_conforms (m : List (String × JSON)) (h : PaginationResponseRecord.conforms m = true)
    (r : PaginationResponseRecord) : (decodeObject PaginationResponseRecord.fields m r).2 = none := by
  unfold PaginationResponseRecord.conforms at h
  simp only [Bool.and_eq_true, and_assoc] at h
  obtain ⟨hclean, h0, h1, h2, h3, h4, h5⟩ := h
  apply decodeObject_noErr
  intro k v f hkv hf r
  obtain ⟨hfm, hfold⟩ := findField_some _ k f hf
  have hfk : f.name = k :=
    cleanKeys_exact _ _ hclean k (List.mem_map.mpr ⟨(k, v), hkv, rfl⟩) f.name
      (List.mem_map.mpr ⟨f, hfm, rfl⟩) hfold
  have hl := lookup_of_mem m (cleanKeys_nodup _ _ hclean) k v hkv
  simp only [PaginationResponseRecord.fields, List.mem_cons, List.mem_singleton, List.not_mem_nil, or_false] at hfm
  rcases hfm with rfl | rfl | rfl | rfl | rfl | rfl
  · have hk : "last_index" = k := hfk
    subst hk
    have hh := h0
    rw [hl] at hh
    exact int_noErr v _ hh
  · have hk : "page_index" = k := hfk
    subst hk
    have hh := h1
    rw [hl] at hh
    exact int_noErr v _ hh
  · have hk : "page_records" = k := hfk
    subst hk
    have hh := h2
    rw [hl] at hh
    exact int_noErr v _ hh
  · have hk : "self_link" = k := hfk
    subst hk
    have hh := h3
    rw [hl] at hh
    exact string_noErr v _ hh
  · have hk : "title" = k := hfk
    subst hk
    have hh := h4
    rw [hl] at hh
    exact string_noErr v _ hh
  · have hk : "total_records" = k := hfk
    subst hk
    have hh := h5
    rw [hl] at hh
    exact int_noErr v _ hh

/-- Storing a well-formed `PaginationResponseRecord` object into the zero record gives the record read key by key. -/
theorem PaginationResponseRecord_decode_of_conforms (m : List (String × JSON)) (h : PaginationResponseRecord.conforms m = true) :
    (decodeObject PaginationResponseRecord.fields m PaginationResponseRecord.zero).1 = PaginationResponseRecord.ofMembers m := by
  unfold PaginationResponseRecord.conforms at h
  simp only [Bool.and_eq_true, and_assoc] at h
  obtain ⟨hclean, h0, h1, h2, h3, h4, h5⟩ := h
  have hmemAll : ∀ f ∈ PaginationResponseRecord.fields, f ∈ PaginationResponseRecord.fields := fun _ hf => hf
  apply PaginationResponseRecord.ext
  · have hh := h0
    have hg := decodeObject_get PaginationResponseRecord.fields "last_index" (fun r => r.LastIndex) decodeInt
      ⟨field "last_index" (fun r => r.LastIndex) (fun r x => { r with LastIndex := x }) decodeInt,
        by simp [PaginationResponseRecord.fields], rfl⟩
      (by
        intro f hf hn v r
        simp only [PaginationResponseRecord.fields, List.mem_cons, List.mem_singleton, List.not_mem_nil, or_false] at hf
        rcases hf with rfl | rfl | rfl | rfl | rfl | rfl
        all_goals first | rfl | exact absurd hn (by decide))
      (by
        intro f hf hn v r
        simp only [PaginationResponseRecord.fields, List.mem_cons, List.mem_singleton, List.not_mem_nil, or_false] at hf
        rcases hf with rfl | rfl | rfl | rfl | rfl | rfl
        all_goals first | rfl | exact absurd rfl hn)
      m hclean PaginationResponseRecord.zero
    exact hg.trans (int_value _ hh)
  · have hh := h1
    have hg := decodeObject_get PaginationResponseRecord.fields "page_index" (fun r => r.PageIndex) decodeInt
      ⟨field "page_index" (fun r => r.PageIndex) (fun r x => { r with PageIndex := x }) decodeInt,
        by simp [PaginationResponseRecord.fields], rfl⟩
      (by
        intro f hf hn v r
        simp only [PaginationResponseRecord.fields, List.mem_cons, List.mem_singleton, List.not_mem_nil, or_false] at hf
        rcases hf with rfl | rfl | rfl | rfl | rfl | rfl
        all_goals first | rfl | exact absurd hn (by decide))
      (by
        intro f hf hn v r
        simp only [PaginationResponseRecord.fields, List.mem_cons, List.mem_singleton, List.not_mem_nil, or_false] at hf
        rcases hf with rfl | rfl | rfl | rfl | rfl | rfl
        all_goals first | rfl | exact absurd rfl hn)
      m hclean PaginationResponseRecord.zero
    exact hg.trans (int_value _ hh)
  · have hh := h2
    have hg := decodeObject_get PaginationResponseRecord.fields "page_records" (fun r => r.PageRecords) decodeInt
      ⟨field "page_records" (fun r => r.PageRecords) (fun r x => { r with PageRecords := x }) decodeInt,
        by simp [PaginationResponseRecord.fields], rfl⟩
      (by
        intro f hf hn v r
        simp only [PaginationResponseRecord.fields, List.mem_cons, List.mem_singleton, List.not_mem_nil, or_false] at hf
        rcases hf with rfl | rfl | rfl | rfl | rfl | rfl
        all_goals first | rfl | exact absurd hn (by decide))
      (by
        intro f hf hn v r
        simp only [PaginationResponseRecord.fields, List.mem_cons, List.mem_singleton, List.not_mem_nil, or_false] at hf
        rcases hf with rfl | rfl | rfl | rfl | rfl | rfl
        all_goals first | rfl | exact absurd rfl hn)
      m hclean PaginationResponseRecord.zero
    exact hg.trans (int_value _ hh)
  · have hh := h3
    have hg := decodeObject_get PaginationResponseRecord.fields "self_link" (fun r => r.SelfLink) decodeString
      ⟨field "self_link" (fun r => r.SelfLink) (fun r x => { r with SelfLink := x }) decodeString,
        by simp [PaginationResponseRecord.fields], rfl⟩
      (by
        intro f hf hn v r
        simp only [PaginationResponseRecord.fields, List.mem_cons, List.mem_singleton, List.not_mem_nil, or_false] at hf
        rcases hf with rfl | rfl | rfl | rfl | rfl | rfl
        all_goals first | rfl | exact absurd hn (by decide))
      (by
        intro f hf hn v r
        simp only [PaginationResponseRecord.fields, List.mem_cons, List.mem_singleton, List.not_mem_nil, or_false] at hf
        rcases hf with rfl | rfl | rfl | rfl | rfl | rfl
        all_goals first | rfl | exact absurd rfl hn)
      m hclean PaginationResponseRecord.zero
    exact hg.trans (string_value _ hh)
  · have hh := h4
    have hg := decodeObject_get PaginationResponseRecord.fields "title" (fun r => r.Title) decodeString
      ⟨field "title" (fun r => r.Title) (fun r x => { r with Title := x }) decodeString,
        by simp [PaginationResponseRecord.fields], rfl⟩
      (by
        intro f hf hn v r
        simp only [PaginationResponseRecord.fields, List.mem_cons, List.mem_singleton, List.not_mem_nil, or_false] at hf
        rcases hf with rfl | rfl | rfl | rfl | rfl | rfl
        all_goals first | rfl | exact absurd hn (by decide))
      (by
        intro f hf hn v r
        simp only [PaginationResponseRecord.fields, List.mem_cons, List.mem_singleton, List.not_mem_nil, or_false] at hf
        rcases hf with rfl | rfl | rfl | rfl | rfl | rfl
        all_goals first | rfl | exact absurd rfl hn)
      m hclean PaginationResponseRecord.zero
    exact hg.trans (string_value _ hh)
  · have hh := h5
    have hg := decodeObject_get PaginationResponseRecord.fields "total_records" (fun r => r.TotalRecords) decodeInt
      ⟨field "total_records" (fun r => r.TotalRecords) (fun r x => { r with TotalRecords := x }) decodeInt,
        by simp [PaginationResponseRecord.fields], rfl⟩
      (by
        intro f hf hn v r
        simp only [PaginationResponseRecord.fields, List.mem_cons, List.mem_singleton, List.not_mem_nil, or_false] at hf
        rcases hf with rfl | rfl | rfl | rfl | rfl | rfl
        all_goals first | rfl | exact absurd hn (by decide))
      (by
        intro f hf hn v r
        simp only [PaginationResponseRecord.fields, List.mem_cons, List.mem_singleton, List.not_mem_nil, or_false] at hf
        rcases hf with rfl | rfl | rfl | rfl | rfl | rfl
        all_goals first | rfl | exact absurd rfl hn)
      m hclean PaginationResponseRecord.zero
    exact hg.trans (int_value _ hh)

/-- Storing a well-formed `SerialNumberRecord` object reports no error. -/
theorem SerialNumberRecord_noErr_of_conforms (m : List (String × JSON)) (h : SerialNumberRecord.conforms m = true)
    (r : SerialNumberRecord) : (decodeObject SerialNumberRecord.fields m r).2 = none := by
  unfold SerialNumberRecord.conforms at h
  simp only [Bool.and_eq_true, and_assoc] at h
  obtain ⟨hclean, h0, h1, h2, h3, h4, h5, h6, h7, h8, h9, h10, h11, h12, h13, h14, h15, h16⟩ := h
  apply decodeObject_noErr
  intro k v f hkv hf r
  obtain ⟨hfm, hfold⟩ := findField_some _ k f hf
  have hfk : f.name = k :=
    cleanKeys_exact _ _ hclean k (List.mem_map.mpr ⟨(k, v), hkv, rfl⟩) f.name
      (List.mem_map.mpr ⟨f, hfm, rfl⟩) hfold
  have hl := lookup_of_mem m (cleanKeys_nodup _ _ hclean) k v hkv
  simp only [SerialNumberRecord.fields, List.mem_cons, List.mem_singleton, List.not_mem_nil, or_false] at hfm
  rcases hfm with rfl | rfl | rfl | rfl | rfl | rfl | rfl | rfl | rfl | rfl | rfl | rfl | rfl | rfl | rfl | rfl | rfl
  · have hk : "base_pid_list" = k := hfk
    subst hk
    have hh := h0
    rw [hl] at hh
    exact list_noErr BasePidEntry.fields BasePidEntry.zero BasePidEntry.conforms BasePidEntry_noErr_of_conforms v _ hh
  · have hk : "contract_site_customer_name" = k := hfk
    subst hk
    have hh := h1
    rw [hl] at hh
    exact string_noErr v _ hh
  · have hk : "contract_site_address1" = k := hfk
    subst hk
    have hh := h2
    rw [hl] at hh
    exact string_noErr v _ hh
  · have hk : "contract_site_city" = k := hfk
    subst hk
    have hh := h3
    rw [hl] at hh
    exact string_noErr v _ hh
  · have hk : "contract_site_state_province" = k := hfk
    subst hk
    have hh := h4
    rw [hl] at hh
    exact string_noErr v _ hh
  · have hk : "contract_site_country" = k := hfk
    subst hk
    have hh := h5
    rw [hl] at hh
    exact string_noErr v _ hh
  · have hk : "covered_product_line_end_date" = k := hfk
    subst hk
    have hh := h6
    rw [hl] at hh
    exact string_noErr v _ hh
  · have hk : "id" = k := hfk
    subst hk
    have hh := h7
    rw [hl] at hh
    exact string_noErr v _ hh
  · have hk : "is_covered" = k := hfk
    subst hk
    have hh := h8
    rw [hl] at hh
    exact string_noErr v _ hh
  · have hk : "orderable_pid_list" = k := hfk
    subst hk
    have hh := h9
    rw [hl] at hh
    exact list_noErr OrderablePidEntry.fields OrderablePidEntry.zero OrderablePidEntry.conforms OrderablePidEntry_noErr_of_conforms v _ hh
  · have hk : "parent_sr_no" = k := hfk
    subst hk
    have hh := h10
    rw [hl] at hh
    exact string_noErr v _ hh
  · have hk : "service_contract_number" = k := hfk
    subst hk
    have hh := h11
    rw [hl] at hh
    exact string_noErr v _ hh
  · have hk : "service_line_descr" = k := hfk
    subst hk
    have hh := h12
    rw [hl] at hh
    exact string_noErr v _ hh
  · have hk : "sr_no" = k := hfk
    subst hk
    have hh := h13
    rw [hl] at hh
    exact string_noErr v _ hh
  · have hk : "warranty_end_date" = k := hfk
    subst hk
    have hh := h14
    rw [hl] at hh
    exact string_noErr v _ hh
  · have hk : "warranty_type" = k := hfk
    subst hk
    have hh := h15
    rw [hl] at hh
    exact string_noErr v _ hh
  · have hk : "warranty_type_description" = k := hfk
    subst hk
    have hh := h16
    rw [hl] at hh
    exact string_noErr v _ hh

/-- Storing a well-formed `SerialNumberRecord` object into the zero record gives the record read key by key. -/
theorem SerialNumberRecord_decode_of_conforms (m : List (String × JSON)) (h : SerialNumberRecord.conforms m = true) :
    (decodeObject SerialNumberRecord.fields m SerialNumberRecord.zero).1 = SerialNumberRecord.ofMembers m := by
  unfold SerialNumberRecord.conforms at h
  simp only [Bool.and_eq_true, and_assoc] at h
  obtain ⟨hclean, h0, h1, h2, h3, h4, h5, h6, h7, h8, h9, h10, h11, h12, h13, h14, h15, h16⟩ := h
  have hmemAll : ∀ f ∈ SerialNumberRecord.fields, f ∈ SerialNumberRecord.fields := fun _ hf => hf
  apply SerialNumberRecord.ext
  · have hh := h0
    have hg := decodeObject_get SerialNumberRecord.fields "base_pid_list" (fun r => r.BasePidList) (decodeSlice (decodeStruct BasePidEntry.fields) BasePidEntry.zero)
      ⟨field "base_pid_list" (fun r => r.BasePidList) (fun r x => { r with BasePidList := x }) (decodeSlice (decodeStruct BasePidEntry.fields) BasePidEntry.zero),
        by simp [SerialNumberRecord.fields], rfl⟩
      (by
        intro f hf hn v r
        simp only [SerialNumberRecord.fields, List.mem_cons, List.mem_singleton, List.not_mem_nil, or_false] at hf
        rcases hf with rfl | rfl | rfl | rfl | rfl | rfl | rfl | rfl | rfl | rfl | rfl | rfl | rfl | rfl | rfl | rfl | rfl
        all_goals first | rfl | exact absurd hn (by decide))
      (by
        intro f hf hn v r
        simp only [SerialNumberRecord.fields, List.mem_cons, List.mem_singleton, List.not_mem_nil, or_false] at hf
        rcases hf with rfl | rfl | rfl | rfl | rfl | rfl | rfl | rfl | rfl | rfl | rfl | rfl | rfl | rfl | rfl | rfl | rfl
        all_goals first | rfl | exact absurd rfl hn)
      m hclean SerialNumberRecord.zero
    exact hg.trans (list_value BasePidEntry.fields BasePidEntry.zero BasePidEntry.ofMembers BasePidEntry.conforms BasePidEntry_decode_of_conforms _ hh)
  · have hh := h1
    have hg := decodeObject_get SerialNumberRecord.fields "contract_site_customer_name" (fun r => r.ContractSiteCustomerName) decodeString
      ⟨field "contract_site_customer_name" (fun r => r.ContractSiteCustomerName) (fun r x => { r with ContractSiteCustomerName := x }) decodeString,
        by simp [SerialNumberRecord.fields], rfl⟩
      (by
        intro f hf hn v r
        simp only [SerialNumberRecord.fields, List.mem_cons, List.mem_singleton, List.not_mem_nil, or_false] at hf
        rcases hf with rfl | rfl | rfl | rfl | rfl | rfl | rfl | rfl | rfl | rfl | rfl | rfl | rfl | rfl | rfl | rfl | rfl
        all_goals first | rfl | exact absurd hn (by decide))
      (by
        intro f hf hn v r
        simp only [SerialNumberRecord.fields, List.mem_cons, List.mem_singleton, List.not_mem_nil, or_false] at hf
        rcases hf with rfl | rfl | rfl | rfl | rfl | rfl | rfl | rfl | rfl | rfl | rfl | rfl | rfl | rfl | rfl | rfl | rfl
        all_goals first | rfl | exact absurd rfl hn)
      m hclean SerialNumberRecord.zero
    exact hg.trans (string_value _ hh)
  · have hh := h2
    have hg := decodeObject_get SerialNumberRecord.fields "contract_site_address1" (fun r => r.ContractSiteAddress1) decodeString
      ⟨field "contract_site_address1" (fun r => r.ContractSiteAddress1) (fun r x => { r with ContractSiteAddress1 := x }) decodeString,
        by simp [SerialNumberRecord.fields], rfl⟩
      (by
        intro f hf hn v r
        simp only [SerialNumberRecord.fields, List.mem_cons, List.mem_singleton, List.not_mem_nil, or_false] at hf
        rcases hf with rfl | rfl | rfl | rfl | rfl | rfl | rfl | rfl | rfl | rfl | rfl | rfl | rfl | rfl | rfl | rfl | rfl
        all_goals first | rfl | exact absurd hn (by decide))
      (by
        intro f hf hn v r
        simp only [SerialNumberRecord.fields, List.mem_cons, List.mem_singleton, List.not_mem_nil, or_false] at hf
        rcases hf with rfl | rfl | rfl | rfl | rfl | rfl | rfl | rfl | rfl | rfl | rfl | rfl | rfl | rfl | rfl | rfl | rfl
        all_goals first | rfl | exact absurd rfl hn)
      m hclean SerialNumberRecord.zero
    exact hg.trans (string_value _ hh)
  · have hh := h3
    have hg := decodeObject_get SerialNumberRecord.fields "contract_site_city" (fun r => r.ContractSiteCity) decodeString
      ⟨field "contract_site_city" (fun r => r.ContractSiteCity) (fun r x => { r with ContractSiteCity := x }) decodeString,
        by simp [SerialNumberRecord.fields], rfl⟩
      (by
        intro f hf hn v r
        simp only [SerialNumberRecord.fields, List.mem_cons, List.mem_singleton, List.not_mem_nil, or_false] at hf
        rcases hf with rfl | rfl | rfl | rfl | rfl | rfl | rfl | rfl | rfl | rfl | rfl | rfl | rfl | rfl | rfl | rfl | rfl
        all_goals first | rfl | exact absurd hn (by decide))
      (by
        intro f hf hn v r
        simp only [SerialNumberRecord.fields, List.mem_cons, List.mem_singleton, List.not_mem_nil, or_false] at hf
        rcases hf with rfl | rfl | rfl | rfl | rfl | rfl | rfl | rfl | rfl | rfl | rfl | rfl | rfl | rfl | rfl | rfl | rfl
        all_goals first | rfl | exact absurd rfl hn)
      m hclean SerialNumberRecord.zero
    exact hg.trans (string_value _ hh)
  · have hh := h4
    have hg := decodeObject_get SerialNumberRecord.fields "contract_site_state_province" (fun r => r.ContractSiteStateProvince) decodeString
      ⟨field "contract_site_state_province" (fun r => r.ContractSiteStateProvince) (fun r x => { r with ContractSiteStateProvince := x }) decodeString,
        by simp [SerialNumberRecord.fields], rfl⟩
      (by
        intro f hf hn v r
        simp only [SerialNumberRecord.fields, List.mem_cons, List.mem_singleton, List.not_mem_nil, or_false] at hf
        rcases hf with rfl | rfl | rfl | rfl | rfl | rfl | rfl | rfl | rfl | rfl | rfl | rfl | rfl | rfl | rfl | rfl | rfl
        all_goals first | rfl | exact absurd hn (by decide))
      (by
        intro f hf hn v r
        simp only [SerialNumberRecord.fields, List.mem_cons, List.mem_singleton, List.not_mem_nil, or_false] at hf
        rcases hf with rfl | rfl | rfl | rfl | rfl | rfl | rfl | rfl | rfl | rfl | rfl | rfl | rfl | rfl | rfl | rfl | rfl
        all_goals first | rfl | exact absurd rfl hn)
      m hclean SerialNumberRecord.zero
    exact hg.trans (string_value _ hh)
  · have hh := h5
    have hg := decodeObject_get SerialNumberRecord.fields "contract_site_country" (fun r => r.ContractSiteCountry) decodeString
      ⟨field "contract_site_country" (fun r => r.ContractSiteCountry) (fun r x => { r with ContractSiteCountry := x }) decodeString,
        by simp [SerialNumberRecord.fields], rfl⟩
      (by
        intro f hf hn v r
        simp only [SerialNumberRecord.fields, List.mem_cons, List.mem_singleton, List.not_mem_nil, or_false] at hf
        rcases hf with rfl | rfl | rfl | rfl | rfl | rfl | rfl | rfl | rfl | rfl | rfl | rfl | rfl | rfl | rfl | rfl | rfl
        all_goals first | rfl | exact absurd hn (by decide))
      (by
        intro f hf hn v r
        simp only [SerialNumberRecord.fields, List.mem_cons, List.mem_singleton, List.not_mem_nil, or_false] at hf
        rcases hf with rfl | rfl | rfl | rfl | rfl | rfl | rfl | rfl | rfl | rfl | rfl | rfl | rfl | rfl | rfl | rfl | rfl
        all_goals first | rfl | exact absurd rfl hn)
      m hclean SerialNumberRecord.zero
    exact hg.trans (string_value _ hh)
  · have hh := h6
    have hg := decodeObject_get SerialNumberRecord.fields "covered_product_line_end_date" (fun r => r.CoveredProductLineEndDate) decodeString
      ⟨field "covered_product_line_end_date" (fun r => r.CoveredProductLineEndDate) (fun r x => { r with CoveredProductLineEndDate := x }) decodeString,
        by simp [SerialNumberRecord.fields], rfl⟩
      (by
        intro f hf hn v r
        simp only [SerialNumberRecord.fields, List.mem_cons, List.mem_singleton, List.not_mem_nil, or_false] at hf
        rcases hf with rfl | rfl | rfl | rfl | rfl | rfl | rfl | rfl | rfl | rfl | rfl | rfl | rfl | rfl | rfl | rfl | rfl
        all_goals first | rfl | exact absurd hn (by decide))
      (by
        intro f hf hn v r
        simp only [SerialNumberRecord.fields, List.mem_cons, List.mem_singleton, List.not_mem_nil, or_false] at hf
        rcases hf with rfl | rfl | rfl | rfl | rfl | rfl | rfl | rfl | rfl | rfl | rfl | rfl | rfl | rfl | rfl | rfl | rfl
        all_goals first | rfl | exact absurd rfl hn)
      m hclean SerialNumberRecord.zero
    exact hg.trans (string_value _ hh)
  · have hh := h7
    have hg := decodeObject_get SerialNumberRecord.fields "id" (fun r => r.ID) decodeString
      ⟨field "id" (fun r => r.ID) (fun r x => { r with ID := x }) decodeString,
        by simp [SerialNumberRecord.fields], rfl⟩
      (by
        intro f hf hn v r
        simp only [SerialNumberRecord.fields, List.mem_cons, List.mem_singleton, List.not_mem_nil, or_false] at hf
        rcases hf with rfl | rfl | rfl | rfl | rfl | rfl | rfl | rfl | rfl | rfl | rfl | rfl | rfl | rfl | rfl | rfl | rfl
        all_goals first | rfl | exact absurd hn (by decide))
      (by
        intro f hf hn v r
        simp only [SerialNumberRecord.fields, List.mem_cons, List.mem_singleton, List.not_mem_nil, or_false] at hf
        rcases hf with rfl | rfl | rfl | rfl | rfl | rfl | rfl | rfl | rfl | rfl | rfl | rfl | rfl | rfl | rfl | rfl | rfl
        all_goals first | rfl | exact absurd rfl hn)
      m hclean SerialNumberRecord.zero
    exact hg.trans (string_value _ hh)
  · have hh := h8
    have hg := decodeObject_get SerialNumberRecord.fields "is_covered" (fun r => r.IsCovered) decodeString
      ⟨field "is_covered" (fun r => r.IsCovered) (fun r x => { r with IsCovered := x }) decodeString,
        by simp [SerialNumberRecord.fields], rfl⟩
      (by
        intro f hf hn v r
        simp only [SerialNumberRecord.fields, List.mem_cons, List.mem_singleton, List.not_mem_nil, or_false] at hf
        rcases hf with rfl | rfl | rfl | rfl | rfl | rfl | rfl | rfl | rfl | rfl | rfl | rfl | rfl | rfl | rfl | rfl | rfl
        all_goals first | rfl | exact absurd hn (by decide))
      (by
        intro f hf hn v r
        simp only [SerialNumberRecord.fields, List.mem_cons, List.mem_singleton, List.not_mem_nil, or_false] at hf
        rcases hf with rfl | rfl | rfl | rfl | rfl | rfl | rfl | rfl | rfl | rfl | rfl | rfl | rfl | rfl | rfl | rfl | rfl
        all_goals first | rfl | exact absurd rfl hn)
      m hclean SerialNumberRecord.zero
    exact hg.trans (string_value _ hh)
  · have hh := h9
    have hg := decodeObject_get SerialNumberRecord.fields "orderable_pid_list" (fun r => r.OrderablePidList) (decodeSlice (decodeStruct OrderablePidEntry.fields) OrderablePidEntry.zero)
      ⟨field "orderable_pid_list" (fun r => r.OrderablePidList) (fun r x => { r with OrderablePidList := x }) (decodeSlice (decodeStruct OrderablePidEntry.fields) OrderablePidEntry.zero),
        by simp [SerialNumberRecord.fields], rfl⟩
      (by
        intro f hf hn v r
        simp only [SerialNumberRecord.fields, List.mem_cons, List.mem_singleton, List.not_mem_nil, or_false] at hf
        rcases hf with rfl | rfl | rfl | rfl | rfl | rfl | rfl | rfl | rfl | rfl | rfl | rfl | rfl | rfl | rfl | rfl | rfl
        all_goals first | rfl | exact absurd hn (by decide))
      (by
        intro f hf hn v r
        simp only [SerialNumberRecord.fields, List.mem_cons, List.mem_singleton, List.not_mem_nil, or_false] at hf
        rcases hf with rfl | rfl | rfl | rfl | rfl | rfl | rfl | rfl | rfl | rfl | rfl | rfl | rfl | rfl | rfl | rfl | rfl
        all_goals first | rfl | exact absurd rfl hn)
      m hclean SerialNumberRecord.zero
    exact hg.trans (list_value OrderablePidEntry.fields OrderablePidEntry.zero OrderablePidEntry.ofMembers OrderablePidEntry.conforms OrderablePidEntry_decode_of_conforms _ hh)
  · have hh := h10
    have hg := decodeObject_get SerialNumberRecord.fields "parent_sr_no" (fun r => r.ParentSrNo) decodeString
      ⟨field "parent_sr_no" (fun r => r.ParentSrNo) (fun r x => { r with ParentSrNo := x }) decodeString,
        by simp [SerialNumberRecord.fields], rfl⟩
      (by
        intro f hf hn v r
        simp only [SerialNumberRecord.fields, List.mem_cons, List.mem_singleton, List.not_mem_nil, or_false] at hf
        rcases hf with rfl | rfl | rfl | rfl | rfl | rfl | rfl | rfl | rfl | rfl | rfl | rfl | rfl | rfl | rfl | rfl | rfl
        all_goals first | rfl | exact absurd hn (by decide))
      (by
        intro f hf hn v r
        simp only [SerialNumberRecord.fields, List.mem_cons, List.mem_singleton, List.not_mem_nil, or_false] at hf
        rcases hf with rfl | rfl | rfl | rfl | rfl | rfl | rfl | rfl | rfl | rfl | rfl | rfl | rfl | rfl | rfl | rfl | rfl
        all_goals first | rfl | exact absurd rfl hn)
      m hclean SerialNumberRecord.zero
    exact hg.trans (string_value _ hh)
  · have hh := h11
    have hg := decodeObject_get SerialNumberRecord.fields "service_contract_number" (fun r => r.ServiceContractNumber) decodeString
      ⟨field "service_contract_number" (fun r => r.ServiceContractNumber) (fun r x => { r with ServiceContractNumber := x }) decodeString,
        by simp [SerialNumberRecord.fields], rfl⟩
      (by
        intro f hf hn v r
        simp only [SerialNumberRecord.fields, List.mem_cons, List.mem_singleton, List.not_mem_nil, or_false] at hf
        rcases hf with rfl | rfl | rfl | rfl | rfl | rfl | rfl | rfl | rfl | rfl | rfl | rfl | rfl | rfl | rfl | rfl | rfl
        all_goals first | rfl | exact absurd hn (by decide))
      (by
        intro f hf hn v r
        simp only [SerialNumberRecord.fields, List.mem_cons, List.mem_singleton, List.not_mem_nil, or_false] at hf
        rcases hf with rfl | rfl | rfl | rfl | rfl | rfl | rfl | rfl | rfl | rfl | rfl | rfl | rfl | rfl | rfl | rfl | rfl
        all_goals first | rfl | exact absurd rfl hn)
      m hclean SerialNumberRecord.zero
    exact hg.trans (string_value _ hh)
  · have hh := h12
    have hg := decodeObject_get SerialNumberRecord.fields "service_line_descr" (fun r => r.ServiceLineDescr) decodeString
      ⟨field "service_line_descr" (fun r => r.ServiceLineDescr) (fun r x => { r with ServiceLineDescr := x }) decodeString,
        by simp [SerialNumberRecord.fields], rfl⟩
      (by
        intro f hf hn v r
        simp only [SerialNumberRecord.fields, List.mem_cons, List.mem_singleton, List.not_mem_nil, or_false] at hf
        rcases hf with rfl | rfl | rfl | rfl | rfl | rfl | rfl | rfl | rfl | rfl | rfl | rfl | rfl | rfl | rfl | rfl | rfl
        all_goals first | rfl | exact absurd hn (by decide))
      (by
        intro f hf hn v r
        simp only [SerialNumberRecord.fields, List.mem_cons, List.mem_singleton, List.not_mem_nil, or_false] at hf
        rcases hf with rfl | rfl | rfl | rfl | rfl | rfl | rfl | rfl | rfl | rfl | rfl | rfl | rfl | rfl | rfl | rfl | rfl
        all_goals first | rfl | exact absurd rfl hn)
      m hclean SerialNumberRecord.zero
    exact hg.trans (string_value _ hh)
  · have hh := h13
    have hg := decodeObject_get SerialNumberRecord.fields "sr_no" (fun r => r.SrNo) decodeString
      ⟨field "sr_no" (fun r => r.SrNo) (fun r x => { r with SrNo := x }) decodeString,
        by simp [SerialNumberRecord.fields], rfl⟩
      (by
        intro f hf hn v r
        simp only [SerialNumberRecord.fields, List.mem_cons, List.mem_singleton, List.not_mem_nil, or_false] at hf
        rcases hf with rfl | rfl | rfl | rfl | rfl | rfl | rfl | rfl | rfl | rfl | rfl | rfl | rfl | rfl | rfl | rfl | rfl
        all_goals first | rfl | exact absurd hn (by decide))
      (by
        intro f hf hn v r
        simp only [SerialNumberRecord.fields, List.mem_cons, List.mem_singleton, List.not_mem_nil, or_false] at hf
        rcases hf with rfl | rfl | rfl | rfl | rfl | rfl | rfl | rfl | rfl | rfl | rfl | rfl | rfl | rfl | rfl | rfl | rfl
        all_goals first | rfl | exact absurd rfl hn)
      m hclean SerialNumberRecord.zero
    exact hg.trans (string_value _ hh)
  · have hh := h14
    have hg := decodeObject_get SerialNumberRecord.fields "warranty_end_date" (fun r => r.WarrantyEndDate) decodeString
      ⟨field "warranty_end_date" (fun r => r.WarrantyEndDate) (fun r x => { r with WarrantyEndDate := x }) decodeString,
        by simp [SerialNumberRecord.fields], rfl⟩
      (by
        intro f hf hn v r
        simp only [SerialNumberRecord.fields, List.mem_cons, List.mem_singleton, List.not_mem_nil, or_false] at hf
        rcases hf with rfl | rfl | rfl | rfl | rfl | rfl | rfl | rfl | rfl | rfl | rfl | rfl | rfl | rfl | rfl | rfl | rfl
        all_goals first | rfl | exact absurd hn (by decide))
      (by
        intro f hf hn v r
        simp only [SerialNumberRecord.fields, List.mem_cons, List.mem_singleton, List.not_mem_nil, or_false] at hf
        rcases hf with rfl | rfl | rfl | rfl | rfl | rfl | rfl | rfl | rfl | rfl | rfl | rfl | rfl | rfl | rfl | rfl | rfl
        all_goals first | rfl | exact absurd rfl hn)
      m hclean SerialNumberRecord.zero
    exact hg.trans (string_value _ hh)
  · have hh := h15
    have hg := decodeObject_get SerialNumberRecord.fields "warranty_type" (fun r => r.WarrantyType) decodeString
      ⟨field "warranty_type" (fun r => r.WarrantyType) (fun r x => { r with WarrantyType := x }) decodeString,
        by simp [SerialNumberRecord.fields], rfl⟩
      (by
        intro f hf hn v r
        simp only [SerialNumberRecord.fields, List.mem_cons, List.mem_singleton, List.not_mem_nil, or_false] at hf
        rcases hf with rfl | rfl | rfl | rfl | rfl | rfl | rfl | rfl | rfl | rfl | rfl | rfl | rfl | rfl | rfl | rfl | rfl
        all_goals first | rfl | exact absurd hn (by decide))
      (by
        intro f hf hn v r
        simp only [SerialNumberRecord.fields, List.mem_cons, List.mem_singleton, List.not_mem_nil, or_false] at hf
        rcases hf with rfl | rfl | rfl | rfl | rfl | rfl | rfl | rfl | rfl | rfl | rfl | rfl | rfl | rfl | rfl | rfl | rfl
        all_goals first | rfl | exact absurd rfl hn)
      m hclean SerialNumberRecord.zero
    exact hg.trans (string_value _ hh)
  · have hh := h16
    have hg := decodeObject_get SerialNumberRecord.fields "warranty_type_description" (fun r => r.WarrantyTypeDescription) decodeString
      ⟨field "warranty_type_description" (fun r => r.WarrantyTypeDescription) (fun r x => { r with WarrantyTypeDescription := x }) decodeString,
        by simp [SerialNumberRecord.fields], rfl⟩
      (by
        intro f hf hn v r
        simp only [SerialNumberRecord.fields, List.mem_cons, List.mem_singleton, List.not_mem_nil, or_false] at hf
        rcases hf with rfl | rfl | rfl | rfl | rfl | rfl | rfl | rfl | rfl | rfl | rfl | rfl | rfl | rfl | rfl | rfl | rfl
        all_goals first | rfl | exact absurd hn (by decide))
      (by
        intro f hf hn v r
        simp only [SerialNumberRecord.fields, List.mem_cons, List.mem_singleton, List.not_mem_nil, or_false] at hf
        rcases hf with rfl | rfl | rfl | rfl | rfl | rfl | rfl | rfl | rfl | rfl | rfl | rfl | rfl | rfl | rfl | rfl | rfl
        all_goals first | rfl | exact absurd rfl hn)
      m hclean SerialNumberRecord.zero
    exact hg.trans (string_value _ hh)

/-- Storing a well-formed `Sn2infoSummary` object reports no error. -/
theorem Sn2infoSummary_noErr_of_conforms (m : List (String × JSON)) (h : Sn2infoSummary.conforms m = true)
    (r : Sn2infoSummary) : (decodeObject Sn2infoSummary.fields m r).2 = none := by
  unfold Sn2infoSummary.conforms at h
  simp only [Bool.and_eq_true, and_assoc] at h
  obtain ⟨hclean, h0, h1⟩ := h
  apply decodeObject_noErr
  intro k v f hkv hf r
  obtain ⟨hfm, hfold⟩ := findField_some _ k f hf
  have hfk : f.name = k :=
    cleanKeys_exact _ _ hclean k (List.mem_map.mpr ⟨(k, v), hkv, rfl⟩) f.name
      (List.mem_map.mpr ⟨f, hfm, rfl⟩) hfold
  have hl := lookup_of_mem m (cleanKeys_nodup _ _ hclean) k v hkv
  simp only [Sn2infoSummary.fields, List.mem_cons, List.mem_singleton, List.not_mem_nil, or_false] at hfm
  rcases hfm with rfl | rfl
  · have hk : "pagination_response_record" = k := hfk
    subst hk
    have hh := h0
    rw [hl] at hh
    exact struct_noErr PaginationResponseRecord.fields PaginationResponseRecord.conforms PaginationResponseRecord_noErr_of_conforms v _ hh
  · have hk : "serial_numbers" = k := hfk
    subst hk
    have hh := h1
    rw [hl] at hh
    exact list_noErr SerialNumberRecord.fields SerialNumberRecord.zero SerialNumberRecord.conforms SerialNumberRecord_noErr_of_conforms v _ hh

/-- Storing a well-formed `Sn2infoSummary` object into the zero record gives the record read key by key. -/
theorem Sn2infoSummary_decode_of_conforms (m : List (String × JSON)) (h : Sn2infoSummary.conforms m = true) :
    (decodeObject Sn2infoSummary.fields m Sn2infoSummary.zero).1 = Sn2infoSummary.ofMembers m := by
  unfold Sn2infoSummary.conforms at h
  simp only [Bool.and_eq_true, and_assoc] at h
  obtain ⟨hclean, h0, h1⟩ := h
  have hmemAll : ∀ f ∈ Sn2infoSummary.fields, f ∈ Sn2infoSummary.fields := fun _ hf => hf
  apply Sn2infoSummary.ext
  · have hh := h0
    have hg := decodeObject_get Sn2infoSummary.fields "pagination_response_record" (fun r => r.PaginationResponseRecord) (decodeStruct PaginationResponseRecord.fields)
      ⟨field "pagination_response_record" (fun r => r.PaginationResponseRecord) (fun r x => { r with PaginationResponseRecord := x }) (decodeStruct PaginationResponseRecord.fields),
        by simp [Sn2infoSummary.fields], rfl⟩
      (by
        intro f hf hn v r
        simp only [Sn2infoSummary.fields, List.mem_cons, List.mem_singleton, List.not_mem_nil, or_false] at hf
        rcases hf with rfl | rfl
        all_goals first | rfl | exact absurd hn (by decide))
      (by
        intro f hf hn v r
        simp only [Sn2infoSummary.fields, List.mem_cons, List.mem_singleton, List.not_mem_nil, or_false] at hf
        rcases hf with rfl | rfl
        all_goals first | rfl | exact absurd rfl hn)
      m hclean Sn2infoSummary.zero
    exact hg.trans (struct_value PaginationResponseRecord.fields PaginationResponseRecord.zero PaginationResponseRecord.ofMembers PaginationResponseRecord.conforms PaginationResponseRecord_decode_of_conforms _ hh)
  · have hh := h1
    have hg := decodeObject_get Sn2infoSummary.fields "serial_numbers" (fun r => r.SerialNumbers) (decodeSlice (decodeStruct SerialNumberRecord.fields) SerialNumberRecord.zero)
      ⟨field "serial_numbers" (fun r => r.SerialNumbers) (fun r x => { r with SerialNumbers := x }) (decodeSlice (decodeStruct SerialNumberRecord.fields) SerialNumberRecord.zero),
        by simp [Sn2infoSummary.fields], rfl⟩
      (by
        intro f hf hn v r
        simp only [Sn2infoSummary.fields, List.mem_cons, List.mem_singleton, List.not_mem_nil, or_false] at hf
        rcases hf with rfl | rfl
        all_goals first | rfl | exact absurd hn (by decide))
      (by
        intro f hf hn v r
        simp only [Sn2infoSummary.fields, List.mem_cons, List.mem_singleton, List.not_mem_nil, or_false] at hf
        rcases hf with rfl | rfl
        all_goals first | rfl | exact absurd rfl hn)
      m hclean Sn2infoSummary.zero
    exact hg.trans (list_value SerialNumberRecord.fields SerialNumberRecord.zero SerialNumberRecord.ofMembers SerialNumberRecord.conforms SerialNumberRecord_decode_of_conforms _ hh)

/-- Claim C5: when the transport returns a body that is a well-formed object of
the coverage schema (its keys are distinct and none is a case variant of a tag;
every member that is present has the type of its field, recursively through
`pagination_response_record`, `serial_numbers`, `base_pid_list` and
`orderable_pid_list`), `SN2INFO_request` succeeds and returns the record whose
every field is the value of the member named by the field's tag
(`Sn2infoSummary.ofMembers`), the elements of the lists in order. -/
theorem coverage_fields_match (lib : GoLib) (tr : Transport) (url serial authToken : String)
    (w : World) (resp : Response) (m : List (String × JSON))
    (hurl : lib.newRequestErr (url ++ serial) = none)
    (hresp : tr w.trace (getRequest lib (url ++ serial) authToken) = Except.ok resp)
    (hparse : JSON.parse resp.body = some (JSON.obj m))
    (hconf : Sn2infoSummary.conforms m = true) :
    (SN2INFO_request lib tr url serial authToken w).1 = (Sn2infoSummary.ofMembers m, none) := by
  unfold SN2INFO_request
  rw [request_of_response _ _ _ _ _ _ _ _ resp hurl hresp]
  simp only [unmarshal, hparse, decodeStruct]
  exact Prod.ext (Sn2infoSummary_decode_of_conforms m hconf)
    (Sn2infoSummary_noErr_of_conforms m hconf Sn2infoSummary.zero)

/-- The body with one `serial_numbers` entry that has `sr_no` `SN123` and
`is_covered` `YES` satisfies the hypotheses of `coverage_fields_match`; the
record returned has one entry, with `SrNo = "SN123"` and `IsCovered = "YES"`. -/
theorem coverage_fields_match_witness :
    JSON.parse sampleCoverageBody = some (JSON.obj sampleCoverageMembers) ∧
    Sn2infoSummary.conforms sampleCoverageMembers = true ∧
    (SN2INFO_request plainLib (answer 200 sampleCoverageBody) Sn2infoStatusUrl "SN123" "tok"
      World.init).1 = (Sn2infoSummary.ofMembers sampleCoverageMembers, none) ∧
    (Sn2infoSummary.ofMembers sampleCoverageMembers).SerialNumbers.map
      (fun x => (x.SrNo, x.IsCovered)) = [("SN123", "YES")] :=
  ⟨rfl, by decide,
    coverage_fields_match plainLib (answer 200 sampleCoverageBody) Sn2infoStatusUrl "SN123" "tok"
      World.init { status := 200, body := sampleCoverageBody, readErr := none }
      sampleCoverageMembers rfl rfl rfl (by decide),
    by decide⟩

end Getinfo
